import Mathlib

/-!
Verification of the DUF wrapper sources of the evo-data-converters repository
(SimpleDuf.cs, DufAttributes.cs, Program.cs and the console programs) and of
the content-addressed publish pipeline that the repository documentation
describes.  C# doubles are embedded as exact rationals: the bounds and
vertex routines only compare and copy coordinates, so every finite double
value and every comparison is represented exactly.  C# 32-bit integers are
embedded as integers with explicit two-complement wrap where the code does
arithmetic on them.
-/

/-- Exact value of the C# constant `double.MaxValue`, namely
`(2 - 2 ^ (-52)) * 2 ^ 1023`, as a rational. -/
def doubleMaxValue : ℚ := 2 ^ 1024 - 2 ^ 971

/-- Exact value of the C# constant `double.MinValue = -double.MaxValue`. -/
def doubleMinValue : ℚ := -doubleMaxValue

/-- Embedding of `Deswik.Core.Structures.Vector3_dp`, a vector of three
doubles. -/
structure Vector3q where
  x : ℚ
  y : ℚ
  z : ℚ
  deriving DecidableEq, Repr

/-- Embedding of `Deswik.Core.Structures.Vector4_dp`, a vector of four
doubles; `SimplePolyline` stores vertices with `w = 0`. -/
structure Vector4q where
  x : ℚ
  y : ℚ
  z : ℚ
  w : ℚ
  deriving DecidableEq, Repr

/-- The six running extremes maintained by `SimpleFigure.GetBounds`. -/
structure BoundsAcc where
  minX : ℚ
  minY : ℚ
  minZ : ℚ
  maxX : ℚ
  maxY : ℚ
  maxZ : ℚ
  deriving DecidableEq, Repr

/-- One iteration of the loop body of `SimpleFigure.GetBounds`
(SimpleDuf.cs lines 167 to 177): each coordinate replaces the corresponding
extreme exactly when it lies strictly beyond it, in source order. -/
def boundsStep (acc : BoundsAcc) (v : Vector3q) : BoundsAcc :=
  let acc := if v.x < acc.minX then { acc with minX := v.x } else acc
  let acc := if v.x > acc.maxX then { acc with maxX := v.x } else acc
  let acc := if v.y < acc.minY then { acc with minY := v.y } else acc
  let acc := if v.y > acc.maxY then { acc with maxY := v.y } else acc
  let acc := if v.z < acc.minZ then { acc with minZ := v.z } else acc
  let acc := if v.z > acc.maxZ then { acc with maxZ := v.z } else acc
  acc

/-- Embedding of `SimpleFigure.GetBounds` (SimpleDuf.cs lines 158 to 181;
the overloads in Program.cs lines 54 to 79 and in the console program are
line for line the same computation): the extremes are seeded with
`double.MaxValue` and `double.MinValue` and updated once per vertex; the
first component of the result is `minBounds`, the second `maxBounds`. -/
def getBounds (vertices : List Vector3q) : Vector3q × Vector3q :=
  let acc := vertices.foldl boundsStep
    ⟨doubleMaxValue, doubleMaxValue, doubleMaxValue,
     doubleMinValue, doubleMinValue, doubleMinValue⟩
  (⟨acc.minX, acc.minY, acc.minZ⟩, ⟨acc.maxX, acc.maxY, acc.maxZ⟩)

theorem boundsStep_minX (acc : BoundsAcc) (v : Vector3q) :
    (boundsStep acc v).minX = min acc.minX v.x := by
  simp only [boundsStep, apply_ite BoundsAcc.minX, ite_self]
  split_ifs <;> first | rfl | (symm ; first
    | exact min_eq_left (by linarith)
    | exact min_eq_right (by linarith))

theorem boundsStep_minY (acc : BoundsAcc) (v : Vector3q) :
    (boundsStep acc v).minY = min acc.minY v.y := by
  simp only [boundsStep, apply_ite BoundsAcc.minY, ite_self]
  split_ifs <;> first | rfl | (symm ; first
    | exact min_eq_left (by linarith)
    | exact min_eq_right (by linarith))

theorem boundsStep_minZ (acc : BoundsAcc) (v : Vector3q) :
    (boundsStep acc v).minZ = min acc.minZ v.z := by
  simp only [boundsStep, apply_ite BoundsAcc.minZ, ite_self]
  split_ifs <;> first | rfl | (symm ; first
    | exact min_eq_left (by linarith)
    | exact min_eq_right (by linarith))

theorem boundsStep_maxX (acc : BoundsAcc) (v : Vector3q) :
    (boundsStep acc v).maxX = max acc.maxX v.x := by
  simp only [boundsStep, apply_ite BoundsAcc.maxX, ite_self]
  split_ifs <;> first | rfl | (symm ; first
    | exact max_eq_left (by linarith)
    | exact max_eq_right (by linarith))

theorem boundsStep_maxY (acc : BoundsAcc) (v : Vector3q) :
    (boundsStep acc v).maxY = max acc.maxY v.y := by
  simp only [boundsStep, apply_ite BoundsAcc.maxY, ite_self]
  split_ifs <;> first | rfl | (symm ; first
    | exact max_eq_left (by linarith)
    | exact max_eq_right (by linarith))

theorem boundsStep_maxZ (acc : BoundsAcc) (v : Vector3q) :
    (boundsStep acc v).maxZ = max acc.maxZ v.z := by
  simp only [boundsStep, apply_ite BoundsAcc.maxZ, ite_self]
  split_ifs <;> first | rfl | (symm ; first
    | exact max_eq_left (by linarith)
    | exact max_eq_right (by linarith))

theorem foldl_boundsStep_minX (l : List Vector3q) (acc : BoundsAcc) :
    (l.foldl boundsStep acc).minX = l.foldl (fun m v => min m v.x) acc.minX := by
  induction l generalizing acc with
  | nil => rfl
  | cons v t ih => simp [List.foldl_cons, ih, boundsStep_minX]

theorem foldl_boundsStep_minY (l : List Vector3q) (acc : BoundsAcc) :
    (l.foldl boundsStep acc).minY = l.foldl (fun m v => min m v.y) acc.minY := by
  induction l generalizing acc with
  | nil => rfl
  | cons v t ih => simp [List.foldl_cons, ih, boundsStep_minY]

theorem foldl_boundsStep_minZ (l : List Vector3q) (acc : BoundsAcc) :
    (l.foldl boundsStep acc).minZ = l.foldl (fun m v => min m v.z) acc.minZ := by
  induction l generalizing acc with
  | nil => rfl
  | cons v t ih => simp [List.foldl_cons, ih, boundsStep_minZ]

theorem foldl_boundsStep_maxX (l : List Vector3q) (acc : BoundsAcc) :
    (l.foldl boundsStep acc).maxX = l.foldl (fun m v => max m v.x) acc.maxX := by
  induction l generalizing acc with
  | nil => rfl
  | cons v t ih => simp [List.foldl_cons, ih, boundsStep_maxX]

theorem foldl_boundsStep_maxY (l : List Vector3q) (acc : BoundsAcc) :
    (l.foldl boundsStep acc).maxY = l.foldl (fun m v => max m v.y) acc.maxY := by
  induction l generalizing acc with
  | nil => rfl
  | cons v t ih => simp [List.foldl_cons, ih, boundsStep_maxY]

theorem foldl_boundsStep_maxZ (l : List Vector3q) (acc : BoundsAcc) :
    (l.foldl boundsStep acc).maxZ = l.foldl (fun m v => max m v.z) acc.maxZ := by
  induction l generalizing acc with
  | nil => rfl
  | cons v t ih => simp [List.foldl_cons, ih, boundsStep_maxZ]

theorem foldl_min_spec {α : Type} (f : α → ℚ) (l : List α) (a : ℚ) :
    l.foldl (fun m v => min m (f v)) a ≤ a ∧
    (∀ v ∈ l, l.foldl (fun m v => min m (f v)) a ≤ f v) ∧
    (l.foldl (fun m v => min m (f v)) a = a ∨
      ∃ v ∈ l, l.foldl (fun m v => min m (f v)) a = f v) := by
  induction l generalizing a with
  | nil => exact ⟨le_refl a, by simp, Or.inl rfl⟩
  | cons v t ih =>
    obtain ⟨h1, h2, h3⟩ := ih (min a (f v))
    refine ⟨h1.trans (min_le_left a (f v)), ?_, ?_⟩
    · intro w hw
      rcases List.mem_cons.mp hw with rfl | hw
      · exact h1.trans (min_le_right a (f w))
      · exact h2 w hw
    · rcases h3 with h3 | ⟨w, hw, h3⟩
      · rcases min_cases a (f v) with ⟨hm, _⟩ | ⟨hm, _⟩
        · exact Or.inl (h3.trans hm)
        · exact Or.inr ⟨v, List.mem_cons_self v t, h3.trans hm⟩
      · exact Or.inr ⟨w, List.mem_cons_of_mem v hw, h3⟩

theorem foldl_max_spec {α : Type} (f : α → ℚ) (l : List α) (a : ℚ) :
    a ≤ l.foldl (fun m v => max m (f v)) a ∧
    (∀ v ∈ l, f v ≤ l.foldl (fun m v => max m (f v)) a) ∧
    (l.foldl (fun m v => max m (f v)) a = a ∨
      ∃ v ∈ l, l.foldl (fun m v => max m (f v)) a = f v) := by
  induction l generalizing a with
  | nil => exact ⟨le_refl a, by simp, Or.inl rfl⟩
  | cons v t ih =>
    obtain ⟨h1, h2, h3⟩ := ih (max a (f v))
    refine ⟨(le_max_left a (f v)).trans h1, ?_, ?_⟩
    · intro w hw
      rcases List.mem_cons.mp hw with rfl | hw
      · exact (le_max_right a (f w)).trans h1
      · exact h2 w hw
    · rcases h3 with h3 | ⟨w, hw, h3⟩
      · rcases max_cases a (f v) with ⟨hm, _⟩ | ⟨hm, _⟩
        · exact Or.inl (h3.trans hm)
        · exact Or.inr ⟨v, List.mem_cons_self v t, h3.trans hm⟩
      · exact Or.inr ⟨w, List.mem_cons_of_mem v hw, h3⟩

/-- A fold of `min` seeded with an upper bound of every listed value is
attained at a member of a nonempty list. -/
theorem foldl_min_nonempty {α : Type} (f : α → ℚ) (l : List α) (a : ℚ)
    (hne : l ≠ []) (hb : ∀ v ∈ l, f v ≤ a) :
    (∃ v ∈ l, l.foldl (fun m v => min m (f v)) a = f v) ∧
    (∀ v ∈ l, l.foldl (fun m v => min m (f v)) a ≤ f v) := by
  obtain ⟨_, h2, h3⟩ := foldl_min_spec f l a
  refine ⟨?_, h2⟩
  rcases h3 with h3 | h3
  · obtain ⟨v, hv⟩ := List.exists_mem_of_ne_nil l hne
    exact ⟨v, hv, le_antisymm (h2 v hv) ((hb v hv).trans h3.ge)⟩
  · exact h3

/-- A fold of `max` seeded with a lower bound of every listed value is
attained at a member of a nonempty list. -/
theorem foldl_max_nonempty {α : Type} (f : α → ℚ) (l : List α) (a : ℚ)
    (hne : l ≠ []) (hb : ∀ v ∈ l, a ≤ f v) :
    (∃ v ∈ l, l.foldl (fun m v => max m (f v)) a = f v) ∧
    (∀ v ∈ l, f v ≤ l.foldl (fun m v => max m (f v)) a) := by
  obtain ⟨_, h2, h3⟩ := foldl_max_spec f l a
  refine ⟨?_, h2⟩
  rcases h3 with h3 | h3
  · obtain ⟨v, hv⟩ := List.exists_mem_of_ne_nil l hne
    exact ⟨v, hv, le_antisymm (h3.le.trans (hb v hv)) (h2 v hv)⟩
  · exact h3

/-- The bounding box computed by `getBounds` is the componentwise minimum
and maximum over the vertex coordinates: each extreme is a bound for every
vertex and is attained at some vertex, so no other value contributes. -/
def BoundsComponentwise (vertices : List Vector3q) : Prop :=
  ((∃ v ∈ vertices, (getBounds vertices).1.x = v.x) ∧
    (∀ v ∈ vertices, (getBounds vertices).1.x ≤ v.x)) ∧
  ((∃ v ∈ vertices, (getBounds vertices).1.y = v.y) ∧
    (∀ v ∈ vertices, (getBounds vertices).1.y ≤ v.y)) ∧
  ((∃ v ∈ vertices, (getBounds vertices).1.z = v.z) ∧
    (∀ v ∈ vertices, (getBounds vertices).1.z ≤ v.z)) ∧
  ((∃ v ∈ vertices, (getBounds vertices).2.x = v.x) ∧
    (∀ v ∈ vertices, v.x ≤ (getBounds vertices).2.x)) ∧
  ((∃ v ∈ vertices, (getBounds vertices).2.y = v.y) ∧
    (∀ v ∈ vertices, v.y ≤ (getBounds vertices).2.y)) ∧
  ((∃ v ∈ vertices, (getBounds vertices).2.z = v.z) ∧
    (∀ v ∈ vertices, v.z ≤ (getBounds vertices).2.z))

/-- All six coordinates of a vertex lie in the range of finite doubles,
which every `Vector3_dp` coming from a C# double array satisfies. -/
def InDoubleRange (v : Vector3q) : Prop :=
  doubleMinValue ≤ v.x ∧ v.x ≤ doubleMaxValue ∧
  doubleMinValue ≤ v.y ∧ v.y ≤ doubleMaxValue ∧
  doubleMinValue ≤ v.z ∧ v.z ≤ doubleMaxValue

/-- Claim C6: for every nonempty vertex list of finite double coordinates,
the bounding box produced by `GetBounds` equals the componentwise minimum
and maximum over all vertex coordinates, each extreme being attained at a
vertex and bounding every vertex, with no other value contributing. -/
theorem getBounds_is_componentwise_min_max (vertices : List Vector3q)
    (hne : vertices ≠ []) (hrange : ∀ v ∈ vertices, InDoubleRange v) :
    BoundsComponentwise vertices := by
  have e1 : (getBounds vertices).1.x
      = vertices.foldl (fun m v => min m v.x) doubleMaxValue := by
    simp [getBounds, foldl_boundsStep_minX]
  have e2 : (getBounds vertices).1.y
      = vertices.foldl (fun m v => min m v.y) doubleMaxValue := by
    simp [getBounds, foldl_boundsStep_minY]
  have e3 : (getBounds vertices).1.z
      = vertices.foldl (fun m v => min m v.z) doubleMaxValue := by
    simp [getBounds, foldl_boundsStep_minZ]
  have e4 : (getBounds vertices).2.x
      = vertices.foldl (fun m v => max m v.x) doubleMinValue := by
    simp [getBounds, foldl_boundsStep_maxX]
  have e5 : (getBounds vertices).2.y
      = vertices.foldl (fun m v => max m v.y) doubleMinValue := by
    simp [getBounds, foldl_boundsStep_maxY]
  have e6 : (getBounds vertices).2.z
      = vertices.foldl (fun m v => max m v.z) doubleMinValue := by
    simp [getBounds, foldl_boundsStep_maxZ]
  refine ⟨?_, ?_, ?_, ?_, ?_, ?_⟩
  · rw [e1]
    exact foldl_min_nonempty _ vertices _ hne
      (fun v hv => ((hrange v hv).2.1))
  · rw [e2]
    exact foldl_min_nonempty _ vertices _ hne
      (fun v hv => ((hrange v hv).2.2.2.1))
  · rw [e3]
    exact foldl_min_nonempty _ vertices _ hne
      (fun v hv => ((hrange v hv).2.2.2.2.2))
  · rw [e4]
    exact foldl_max_nonempty _ vertices _ hne
      (fun v hv => ((hrange v hv).1))
  · rw [e5]
    exact foldl_max_nonempty _ vertices _ hne
      (fun v hv => ((hrange v hv).2.2.1))
  · rw [e6]
    exact foldl_max_nonempty _ vertices _ hne
      (fun v hv => ((hrange v hv).2.2.2.2.1))

/-- Witness for C6 at the concrete vertex list of the two-triangle sample:
the hypotheses are discharged at `[(0, 0, 0), (1, 2, -3)]`. -/
theorem getBounds_is_componentwise_min_max_witness :
    BoundsComponentwise [⟨0, 0, 0⟩, ⟨1, 2, -3⟩] :=
  getBounds_is_componentwise_min_max [⟨0, 0, 0⟩, ⟨1, 2, -3⟩]
    (by simp)
    (by
      intro v hv
      simp only [List.mem_cons, List.not_mem_nil, or_false] at hv
      rcases hv with rfl | rfl <;>
        norm_num [InDoubleRange, doubleMinValue, doubleMaxValue])

/-- Errors raised by the embedded operations.  The C# sources raise plain
`System.Exception` values carrying a message (`throw new Exception(...)`),
embedded as `exn`.  The specification instead names a dedicated error class
`UnsupportedGeometryError`; it is a separate constructor so that statements
can distinguish the two.  An array access outside bounds raises
`indexOutOfRange`. -/
inductive CSError where
  | exn (msg : String)
  | unsupportedGeometryError (element : String)
  | indexOutOfRange
  deriving DecidableEq, Repr

/-- The grouping performed by the vertex `while` loops of `SetVertices3D`
and `CreatePolyline`: consume three consecutive doubles as one vertex with
`w = 0`; a trailing group shorter than three is never consumed because the
lengths are checked to be multiples of three beforehand. -/
def toVector4List : List ℚ → List Vector4q
  | x :: y :: z :: rest => ⟨x, y, z, 0⟩ :: toVector4List rest
  | _ => []

/-- The vertex loop of `SimplePolyface.SetVertices3D` and `CreatePolyface`,
which build `Vector3_dp` vertices. -/
def toVector3List : List ℚ → List Vector3q
  | x :: y :: z :: rest => ⟨x, y, z⟩ :: toVector3List rest
  | _ => []

/-- Embedding of `SimplePolyline.SetVertices3D` (SimpleDuf.cs lines 192 to
239).  The method validates that the flat coordinate array length is a
multiple of three, decides `needsClose` by comparing the final point with
the first (this indexes out of bounds when the array is empty and
`ensureClosed` is set, as in the source), fills the vertex list three
doubles at a time, appends a copy of the first point when `needsClose`,
and assigns it to `polyline.VertexList`.  The result is that assigned
vertex list; the subsequent `GetBounds` and `SetMetadataForEntity` calls
derive metadata from it and are covered by `getBounds`. -/
def polylineSetVertices3D (vertices : List ℚ) (ensureClosed : Bool) :
    Except CSError (List Vector4q) :=
  if vertices.length % 3 ≠ 0 then
    Except.error (CSError.exn "Vertices length not a multiple of 3")
  else
    let verticesCount := vertices.length
    if ensureClosed = true ∧ verticesCount = 0 then
      Except.error CSError.indexOutOfRange
    else
      let needsClose := ensureClosed &&
        (vertices.getD (verticesCount - 3) 0 != vertices.getD 0 0 ||
         vertices.getD (verticesCount - 2) 0 != vertices.getD 1 0 ||
         vertices.getD (verticesCount - 1) 0 != vertices.getD 2 0)
      let vertexList := toVector4List vertices
      Except.ok (if needsClose then
        vertexList ++ [⟨vertices.getD 0 0, vertices.getD 1 0, vertices.getD 2 0, 0⟩]
      else vertexList)

/-- Two-complement wrap of unchecked C# 32-bit `int` addition. -/
def wrapInt32 (n : Int) : Int := (n + 2 ^ 31) % 2 ^ 32 - 2 ^ 31

/-- The face-list loop of `SimplePolyface.SetVertices3D` (SimpleDuf.cs
lines 287 to 295): per input triangle `(a, b, c)` it appends the 1-indexed
entries `a + 1`, `b + 1`, `c + 1`, then `triangles[i - 3] + 1` (the first
entry again, closing the triangle), then `-1`. -/
def simpleFaceList : List Int → List Int
  | a :: b :: c :: rest =>
      wrapInt32 (a + 1) :: wrapInt32 (b + 1) :: wrapInt32 (c + 1) ::
        wrapInt32 (a + 1) :: -1 :: simpleFaceList rest
  | _ => []

/-- The face-list loop of `CreatePolyface` in the console program (lines
185 to 193 of the source): per input triangle `(a, b, c)` it appends the
unshifted entries `a`, `b`, `c`, then `triangles[i - 2]` (which is the
second entry `b`, despite the closing comment), then `-1`. -/
def consoleFaceList : List Int → List Int
  | a :: b :: c :: rest => a :: b :: c :: b :: -1 :: consoleFaceList rest
  | _ => []

/-- The vertex and face lists assigned to a `dwPolyface`. -/
structure PolyfaceData where
  vertexList : List Vector3q
  faceList : List Int
  deriving DecidableEq, Repr

/-- Embedding of `SimplePolyface.SetVertices3D` (SimpleDuf.cs lines 248 to
305): both array lengths are validated to be multiples of three, then the
vertex list and the five-entries-per-triangle face list are built and
assigned; metadata is derived afterwards via `getBounds`. -/
def polyfaceSetVertices3D (vertices : List ℚ) (triangles : List Int) :
    Except CSError PolyfaceData :=
  if vertices.length % 3 ≠ 0 then
    Except.error (CSError.exn "Vertices length not a multiple of 3")
  else if triangles.length % 3 ≠ 0 then
    Except.error (CSError.exn "Triangles length not a multiple of 3")
  else
    Except.ok { vertexList := toVector3List vertices,
                faceList := simpleFaceList triangles }

/-- Embedding of `CreatePolyface` in the console program (lines 146 to
199): the same validation and vertex construction, but the face list keeps
0-indexed entries and repeats the second entry of each triangle. -/
def createPolyface (vertices : List ℚ) (triangles : List Int) :
    Except CSError PolyfaceData :=
  if vertices.length % 3 ≠ 0 then
    Except.error (CSError.exn "Vertices length not a multiple of 3")
  else if triangles.length % 3 ≠ 0 then
    Except.error (CSError.exn "Triangles length not a multiple of 3")
  else
    Except.ok { vertexList := toVector3List vertices,
                faceList := consoleFaceList triangles }

/-- Extracts the face list of a successful polyface construction, the empty
list on error. -/
def faceListOf (r : Except CSError PolyfaceData) : List Int :=
  match r with
  | Except.ok d => d.faceList
  | Except.error _ => []

/-- Extracts the vertex list of a successful polyline construction, the
empty list on error. -/
def vertexListOf (r : Except CSError (List Vector4q)) : List Vector4q :=
  match r with
  | Except.ok l => l
  | Except.error _ => []

/-- Recognises a failure that carries the error class named by the
specification. -/
def failsWithUnsupportedGeometry {α : Type} (r : Except CSError α) : Bool :=
  match r with
  | Except.error (CSError.unsupportedGeometryError _) => true
  | _ => false

theorem toVector4List_length : ∀ (l : List ℚ),
    (toVector4List l).length = l.length / 3
  | [] => rfl
  | [_] => by simp [toVector4List]
  | [_, _] => by simp [toVector4List]
  | x :: y :: z :: rest => by
    have ih := toVector4List_length rest
    simp only [toVector4List, List.length_cons, ih]
    omega

theorem toVector4List_ne_nil (l : List ℚ) (h : 3 ≤ l.length) :
    toVector4List l ≠ [] := by
  match l with
  | [] => simp at h
  | [_] => simp at h
  | [_, _] => simp at h
  | x :: y :: z :: rest => simp [toVector4List]

theorem toVector4List_getLast : ∀ (l : List ℚ), l.length % 3 = 0 → l ≠ [] →
    (toVector4List l).getLast? =
      some ⟨l.getD (l.length - 3) 0, l.getD (l.length - 2) 0,
            l.getD (l.length - 1) 0, 0⟩
  | [], _, hne => absurd rfl hne
  | [_], h3, _ => by simp at h3
  | [_, _], h3, _ => by simp at h3
  | x :: y :: z :: rest, h3, _ => by
    match hr : rest with
    | [] => simp [toVector4List]
    | r :: rs =>
      have hlen3 : rest.length % 3 = 0 := by
        subst hr
        simp only [List.length_cons] at h3 ⊢
        omega
      have hne2 : rest ≠ [] := by subst hr ; simp
      have ih := toVector4List_getLast rest hlen3 hne2
      rw [hr] at hlen3 hne2 ih
      have hlen : rs.length % 3 = 2 := by
        simp only [List.length_cons] at hlen3
        omega
      have hge : 3 ≤ (r :: rs).length := by
        simp only [List.length_cons]
        omega
      have hstep : toVector4List (x :: y :: z :: r :: rs) =
          ⟨x, y, z, 0⟩ :: toVector4List (r :: rs) := rfl
      rw [hstep]
      have hnn : toVector4List (r :: rs) ≠ [] := toVector4List_ne_nil _ hge
      obtain ⟨v, t, hvt⟩ : ∃ v t, toVector4List (r :: rs) = v :: t := by
        match hm : toVector4List (r :: rs) with
        | [] => exact absurd hm hnn
        | v :: t => exact ⟨v, t, rfl⟩
      rw [hvt, List.getLast?_cons_cons, ← hvt, ih]
      have hidx : ∀ d : ℚ, ∀ j : ℕ,
          (x :: y :: z :: r :: rs).getD (j + 3) d = (r :: rs).getD j d := by
        intro d j
        simp [List.getD_cons_succ]
      have e1 : (x :: y :: z :: r :: rs).length - 3 = ((r :: rs).length - 3) + 3 := by
        simp only [List.length_cons]
        omega
      have e2 : (x :: y :: z :: r :: rs).length - 2 = ((r :: rs).length - 2) + 3 := by
        simp only [List.length_cons]
        omega
      have e3 : (x :: y :: z :: r :: rs).length - 1 = ((r :: rs).length - 1) + 3 := by
        simp only [List.length_cons]
        omega
      rw [e1, e2, e3, hidx, hidx, hidx]

/-- The flat coordinate array already ends with a copy of its first point:
the three comparisons that `SetVertices3D` makes to decide `needsClose` all
report equality. -/
def ClosedInput (vertices : List ℚ) : Prop :=
  vertices.getD (vertices.length - 3) 0 = vertices.getD 0 0 ∧
  vertices.getD (vertices.length - 2) 0 = vertices.getD 1 0 ∧
  vertices.getD (vertices.length - 1) 0 = vertices.getD 2 0

instance (vertices : List ℚ) : Decidable (ClosedInput vertices) := by
  unfold ClosedInput
  infer_instance

theorem polylineSetVertices3D_ok (vertices : List ℚ)
    (h3 : vertices.length % 3 = 0) (hpos : 0 < vertices.length) :
    polylineSetVertices3D vertices true =
      Except.ok (if ClosedInput vertices then toVector4List vertices
        else toVector4List vertices ++
          [⟨vertices.getD 0 0, vertices.getD 1 0, vertices.getD 2 0, 0⟩]) := by
  have hc1 : ¬(vertices.length % 3 ≠ 0) := by omega
  have hc2 : ¬(True ∧ vertices.length = 0) := by
    rintro ⟨-, h0⟩
    omega
  simp only [polylineSetVertices3D]
  rw [if_neg hc1, if_neg hc2]
  simp only [Bool.true_and]
  by_cases hc : ClosedInput vertices
  · obtain ⟨e1, e2, e3⟩ := hc
    rw [e1, e2, e3]
    simp only [bne_self_eq_false, Bool.or_self]
    rw [if_neg (by simp), if_pos (show ClosedInput vertices from ⟨e1, e2, e3⟩)]
  · have hb : (vertices.getD (vertices.length - 3) 0 != vertices.getD 0 0 ||
        vertices.getD (vertices.length - 2) 0 != vertices.getD 1 0 ||
        vertices.getD (vertices.length - 1) 0 != vertices.getD 2 0) = true := by
      simp only [Bool.or_eq_true, bne_iff_ne]
      by_contra hall
      push_neg at hall
      exact hc ⟨hall.1.1, hall.1.2, hall.2⟩
    rw [hb]
    rw [if_pos rfl, if_neg hc]

/-- Claim C9: for every coordinate array whose length is a positive
multiple of three, `SimplePolyline.SetVertices3D` with `ensureClosed = true`
stores a vertex list whose last point equals its first point; when the
final input point already equals the first the list has exactly
`length / 3` entries, otherwise `length / 3 + 1` entries. -/
theorem polyline_ensureClosed_spec (vertices : List ℚ)
    (h3 : vertices.length % 3 = 0) (hpos : 0 < vertices.length) :
    (polylineSetVertices3D vertices true).isOk = true ∧
    (vertexListOf (polylineSetVertices3D vertices true)).head? =
      some ⟨vertices.getD 0 0, vertices.getD 1 0, vertices.getD 2 0, 0⟩ ∧
    (vertexListOf (polylineSetVertices3D vertices true)).getLast? =
      (vertexListOf (polylineSetVertices3D vertices true)).head? ∧
    (vertexListOf (polylineSetVertices3D vertices true)).length =
      (if ClosedInput vertices then vertices.length / 3
       else vertices.length / 3 + 1) := by
  obtain ⟨x, y, z, rest, hv⟩ : ∃ x y z rest, vertices = x :: y :: z :: rest := by
    match vertices with
    | [] => simp at hpos
    | [a] => simp at h3
    | [a, b] => simp at h3
    | a :: b :: c :: r => exact ⟨a, b, c, r, rfl⟩
  have hne : vertices ≠ [] := by
    rw [hv]
    simp
  have hok := polylineSetVertices3D_ok vertices h3 hpos
  rw [hok]
  have hhead : (toVector4List vertices).head? =
      some ⟨vertices.getD 0 0, vertices.getD 1 0, vertices.getD 2 0, 0⟩ := by
    rw [hv]
    simp [toVector4List]
  have hlast := toVector4List_getLast vertices h3 hne
  by_cases hc : ClosedInput vertices
  · obtain ⟨e1, e2, e3⟩ := hc
    rw [if_pos ⟨e1, e2, e3⟩]
    refine ⟨rfl, hhead, ?_, ?_⟩
    · rw [show vertexListOf (Except.ok (toVector4List vertices)) =
          toVector4List vertices from rfl]
      rw [hlast, hhead, e1, e2, e3]
    · rw [show vertexListOf (Except.ok (toVector4List vertices)) =
          toVector4List vertices from rfl]
      rw [toVector4List_length, if_pos ⟨e1, e2, e3⟩]
  · rw [if_neg hc]
    have hl : vertexListOf (Except.ok (toVector4List vertices ++
        [⟨vertices.getD 0 0, vertices.getD 1 0, vertices.getD 2 0, 0⟩])) =
        toVector4List vertices ++
        [⟨vertices.getD 0 0, vertices.getD 1 0, vertices.getD 2 0, 0⟩] := rfl
    refine ⟨rfl, ?_, ?_, ?_⟩
    · rw [hl, List.head?_append_of_ne_nil]
      · exact hhead
      · exact toVector4List_ne_nil vertices (by rw [hv] ; simp)
    · rw [hl]
      rw [List.head?_append_of_ne_nil _ (toVector4List_ne_nil vertices (by rw [hv] ; simp))]
      rw [hhead]
      simp
    · rw [hl, List.length_append, toVector4List_length, if_neg hc]
      simp

/-- Witness for C9 at the open square path `(0,0,0) (5,0,0) (5,5,0) (0,5,0)`
used by the repository test programs: the closing point is appended. -/
theorem polyline_ensureClosed_spec_witness :
    (polylineSetVertices3D [0, 0, 0, 5, 0, 0, 5, 5, 0, 0, 5, 0] true).isOk = true ∧
    (vertexListOf (polylineSetVertices3D [0, 0, 0, 5, 0, 0, 5, 5, 0, 0, 5, 0] true)).head? =
      some ⟨[0, 0, 0, 5, 0, 0, 5, 5, 0, 0, 5, 0].getD 0 0,
            [0, 0, 0, 5, 0, 0, 5, 5, 0, 0, 5, 0].getD 1 0,
            [0, 0, 0, 5, 0, 0, 5, 5, 0, 0, 5, 0].getD 2 0, 0⟩ ∧
    (vertexListOf (polylineSetVertices3D [0, 0, 0, 5, 0, 0, 5, 5, 0, 0, 5, 0] true)).getLast? =
      (vertexListOf (polylineSetVertices3D [0, 0, 0, 5, 0, 0, 5, 5, 0, 0, 5, 0] true)).head? ∧
    (vertexListOf (polylineSetVertices3D [0, 0, 0, 5, 0, 0, 5, 5, 0, 0, 5, 0] true)).length =
      (if ClosedInput [0, 0, 0, 5, 0, 0, 5, 5, 0, 0, 5, 0] then
        ([0, 0, 0, 5, 0, 0, 5, 5, 0, 0, 5, 0] : List ℚ).length / 3
       else ([0, 0, 0, 5, 0, 0, 5, 5, 0, 0, 5, 0] : List ℚ).length / 3 + 1) :=
  polyline_ensureClosed_spec [0, 0, 0, 5, 0, 0, 5, 5, 0, 0, 5, 0]
    (by simp) (by simp)

/-- Counterexample for C7 as stated: on a malformed input (length 4, not a
multiple of three) the builder does fail and produces no result, but the
raised error is a plain exception carrying the message of the source, not
the `UnsupportedGeometryError` class that the claim names. -/
theorem malformed_geometry_counterexample :
    polylineSetVertices3D [0, 0, 0, 1] true =
      Except.error (CSError.exn "Vertices length not a multiple of 3") ∧
    failsWithUnsupportedGeometry (polylineSetVertices3D [0, 0, 0, 1] true) = false ∧
    polyfaceSetVertices3D [0, 0, 0] [0, 1] =
      Except.error (CSError.exn "Triangles length not a multiple of 3") ∧
    failsWithUnsupportedGeometry (polyfaceSetVertices3D [0, 0, 0] [0, 1]) = false := by
  refine ⟨?_, rfl, ?_, rfl⟩ <;> rfl

/-- Claim C7 as amended: for every vertex array (and triangle array) whose
length is not a multiple of three, the operation fails by raising an
exception whose message names the offending array, before any list is
built or assigned, so no converted result is left; nothing is silently
skipped.  The raised value is a plain `Exception`, not the
`UnsupportedGeometryError` named by the specification. -/
theorem malformed_geometry_raises (vertices : List ℚ) (triangles : List Int)
    (ensureClosed : Bool) :
    (vertices.length % 3 ≠ 0 →
      polylineSetVertices3D vertices ensureClosed =
        Except.error (CSError.exn "Vertices length not a multiple of 3") ∧
      polyfaceSetVertices3D vertices triangles =
        Except.error (CSError.exn "Vertices length not a multiple of 3")) ∧
    (vertices.length % 3 = 0 → triangles.length % 3 ≠ 0 →
      polyfaceSetVertices3D vertices triangles =
        Except.error (CSError.exn "Triangles length not a multiple of 3")) := by
  constructor
  · intro hv
    constructor
    · simp only [polylineSetVertices3D]
      rw [if_pos hv]
    · simp only [polyfaceSetVertices3D]
      rw [if_pos hv]
  · intro hv ht
    simp only [polyfaceSetVertices3D]
    rw [if_neg (by omega), if_pos ht]

/-- Witness for the amended C7: the hypotheses are discharged at the
concrete arrays `[0]` (length 1) and `[0, 1]` (length 2). -/
theorem malformed_geometry_raises_witness :
    (polylineSetVertices3D [0] true =
      Except.error (CSError.exn "Vertices length not a multiple of 3") ∧
     polyfaceSetVertices3D [0] [0, 1, 2] =
      Except.error (CSError.exn "Vertices length not a multiple of 3")) ∧
    polyfaceSetVertices3D [0, 0, 0] [0, 1] =
      Except.error (CSError.exn "Triangles length not a multiple of 3") :=
  ⟨(malformed_geometry_raises [0] [0, 1, 2] true).1 (by simp),
   (malformed_geometry_raises [0, 0, 0] [0, 1] true).2 (by simp) (by simp)⟩

theorem simpleFaceList_length : ∀ (l : List Int),
    (simpleFaceList l).length = 5 * (l.length / 3)
  | [] => rfl
  | [_] => by simp [simpleFaceList]
  | [_, _] => by simp [simpleFaceList]
  | a :: b :: c :: rest => by
    have ih := simpleFaceList_length rest
    simp only [simpleFaceList, List.length_cons, ih]
    omega

theorem consoleFaceList_length : ∀ (l : List Int),
    (consoleFaceList l).length = 5 * (l.length / 3)
  | [] => rfl
  | [_] => by simp [consoleFaceList]
  | [_, _] => by simp [consoleFaceList]
  | a :: b :: c :: rest => by
    have ih := consoleFaceList_length rest
    simp only [consoleFaceList, List.length_cons, ih]
    omega

theorem wrapInt32_add_one_ne (a : Int) : wrapInt32 (a + 1) ≠ a := by
  simp only [wrapInt32]
  omega

theorem faceLists_eq_iff_nil (l : List Int) (h3 : l.length % 3 = 0) :
    simpleFaceList l = consoleFaceList l ↔ l = [] := by
  constructor
  · intro heq
    match l, h3, heq with
    | [], _, _ => rfl
    | [_], h3, _ => ?_
    | [_, _], h3, _ => ?_
    | a :: b :: c :: rest, _, heq => ?_
    · simp at h3
    · simp at h3
    · simp only [simpleFaceList, consoleFaceList, List.cons.injEq] at heq
      exact absurd heq.1 (wrapInt32_add_one_ne a)
  · intro heq
    rw [heq]
    rfl

/-- Counterexample for C8: at the concrete single-triangle input used by
the console program itself, the two face-list encodings disagree:
`SimplePolyface.SetVertices3D` produces the 1-indexed list
`[1, 2, 3, 1, -1]` closing with the first vertex, while `CreatePolyface`
produces the 0-indexed list `[0, 1, 2, 1, -1]` repeating the second. -/
theorem polyface_encodings_counterexample :
    faceListOf (polyfaceSetVertices3D [0, 0, 0, 1, 0, 0, 0, 0, 1] [0, 1, 2]) =
      [1, 2, 3, 1, -1] ∧
    faceListOf (createPolyface [0, 0, 0, 1, 0, 0, 0, 0, 1] [0, 1, 2]) =
      [0, 1, 2, 1, -1] ∧
    faceListOf (polyfaceSetVertices3D [0, 0, 0, 1, 0, 0, 0, 0, 1] [0, 1, 2]) ≠
      faceListOf (createPolyface [0, 0, 0, 1, 0, 0, 0, 0, 1] [0, 1, 2]) := by
  refine ⟨?_, ?_, ?_⟩ <;> decide

/-- Claim C8 as amended: for inputs whose lengths are multiples of three,
both constructions succeed, both face lists have five entries per input
triangle (hence always equal lengths), but the encodings themselves agree
only on an empty triangle array: `SetVertices3D` stores 1-indexed entries
and closes each triangle with its first vertex, `CreatePolyface` stores
0-indexed entries and repeats the second vertex, so for any nonempty
triangle array the two face lists differ. -/
theorem polyface_encodings_related (vertices : List ℚ) (triangles : List Int)
    (hv : vertices.length % 3 = 0) (ht : triangles.length % 3 = 0) :
    (polyfaceSetVertices3D vertices triangles).isOk = true ∧
    (createPolyface vertices triangles).isOk = true ∧
    faceListOf (polyfaceSetVertices3D vertices triangles) = simpleFaceList triangles ∧
    faceListOf (createPolyface vertices triangles) = consoleFaceList triangles ∧
    (faceListOf (polyfaceSetVertices3D vertices triangles)).length =
      5 * (triangles.length / 3) ∧
    (faceListOf (createPolyface vertices triangles)).length =
      5 * (triangles.length / 3) ∧
    (faceListOf (polyfaceSetVertices3D vertices triangles) =
      faceListOf (createPolyface vertices triangles) ↔ triangles = []) := by
  have e1 : polyfaceSetVertices3D vertices triangles =
      Except.ok { vertexList := toVector3List vertices,
                  faceList := simpleFaceList triangles } := by
    simp only [polyfaceSetVertices3D]
    rw [if_neg (by omega), if_neg (by omega)]
  have e2 : createPolyface vertices triangles =
      Except.ok { vertexList := toVector3List vertices,
                  faceList := consoleFaceList triangles } := by
    simp only [createPolyface]
    rw [if_neg (by omega), if_neg (by omega)]
  rw [e1, e2]
  refine ⟨rfl, rfl, rfl, rfl, ?_, ?_, ?_⟩
  · exact simpleFaceList_length triangles
  · exact consoleFaceList_length triangles
  · exact faceLists_eq_iff_nil triangles ht

/-- Witness for the amended C8 at the single-triangle input of the console
program. -/
theorem polyface_encodings_related_witness :
    (polyfaceSetVertices3D [0, 0, 0, 1, 0, 0, 0, 0, 1] [0, 1, 2]).isOk = true ∧
    (createPolyface [0, 0, 0, 1, 0, 0, 0, 0, 1] [0, 1, 2]).isOk = true ∧
    faceListOf (polyfaceSetVertices3D [0, 0, 0, 1, 0, 0, 0, 0, 1] [0, 1, 2]) =
      simpleFaceList [0, 1, 2] ∧
    faceListOf (createPolyface [0, 0, 0, 1, 0, 0, 0, 0, 1] [0, 1, 2]) =
      consoleFaceList [0, 1, 2] ∧
    (faceListOf (polyfaceSetVertices3D [0, 0, 0, 1, 0, 0, 0, 0, 1] [0, 1, 2])).length =
      5 * (([0, 1, 2] : List Int).length / 3) ∧
    (faceListOf (createPolyface [0, 0, 0, 1, 0, 0, 0, 0, 1] [0, 1, 2])).length =
      5 * (([0, 1, 2] : List Int).length / 3) ∧
    (faceListOf (polyfaceSetVertices3D [0, 0, 0, 1, 0, 0, 0, 0, 1] [0, 1, 2]) =
      faceListOf (createPolyface [0, 0, 0, 1, 0, 0, 0, 0, 1] [0, 1, 2]) ↔
        ([0, 1, 2] : List Int) = []) :=
  polyface_encodings_related [0, 0, 0, 1, 0, 0, 0, 0, 1] [0, 1, 2]
    (by simp) (by simp)

/-- Modelled from the spec: a logical array handed to the serializer, a
sequence of named columns of byte-valued cells.  The Python publish
pipeline (ArtifactHasher, LocalArtifactCache, SchemaObjectBuilder,
PublishPipeline) is not among the provided sources, only its notebooks and
documentation are, so these components are modelled faithfully from the
specification text. -/
structure LogicalArray where
  columns : List (String × List Nat)
  deriving DecidableEq, Repr

/-- Modelled from the spec: insertion of a column into a name-sorted list,
used to pin a stable column order during serialization. -/
def insertColumnSorted (c : String × List Nat) :
    List (String × List Nat) → List (String × List Nat)
  | [] => [c]
  | d :: rest =>
      if c.1 ≤ d.1 then c :: d :: rest else d :: insertColumnSorted c rest

/-- Modelled from the spec: columns sorted by name, the stable column order
that canonical serialization requires. -/
def sortColumns (l : List (String × List Nat)) : List (String × List Nat) :=
  l.foldr insertColumnSorted []

/-- Modelled from the spec: canonical bytes of one column, the
length-prefixed name followed by the length-prefixed cell bytes. -/
def serializeColumn (c : String × List Nat) : List Nat :=
  (c.1.length :: c.1.toList.map Char.toNat) ++ (c.2.length :: c.2.map (· % 256))

/-- Modelled from the spec: canonical serialization of a logical array with
a fixed format-version byte, the column count, and the columns in the
pinned name order; deterministic by construction. -/
def serialize (a : LogicalArray) : List Nat :=
  1 :: a.columns.length :: (sortColumns a.columns).flatMap serializeColumn

/-- Modelled from the spec: one step of a deterministic digest over the
serialized bytes, reduced modulo `2 ^ 64`. -/
def digestStep (h b : Nat) : Nat := (h * 131 + b % 256 + 1) % 2 ^ 64

/-- Modelled from the spec: `hash_of(serialized_bytes) -> hash_string`, a
deterministic content digest rendered in hexadecimal.  The real pipeline
uses a cryptographic 256-bit digest; determinism and absence of side
effects are the properties the spec states, and collision freedom is the
idealization the spec assumes (hash equality implies content equality). -/
def hashOf (bytes : List Nat) : String :=
  String.mk (Nat.toDigits 16 (bytes.foldl digestStep 5381))

/-- Claim C1: hash determinism as a two-run equality: serializing a logical
array twice in two runs (two equal inputs) and hashing yields identical
hash strings. -/
theorem hashOf_serialize_deterministic (a b : LogicalArray) (h : a = b) :
    hashOf (serialize a) = hashOf (serialize b) := by
  rw [h]

/-- Witness for C1 at a concrete one-column array. -/
theorem hashOf_serialize_deterministic_witness :
    hashOf (serialize ⟨[("values", [1, 2, 3])]⟩) =
      hashOf (serialize ⟨[("values", [1, 2, 3])]⟩) :=
  hashOf_serialize_deterministic ⟨[("values", [1, 2, 3])]⟩
    ⟨[("values", [1, 2, 3])]⟩ rfl

/-- Modelled from the spec: a SchemaObject as the publish pipeline sees it,
a named object referencing artifacts by hash. -/
structure SchemaObject where
  name : String
  refHashes : List String
  deriving DecidableEq, Repr

/-- Modelled from the spec: the remote blob store together with an
instrumentation counter of `upload_artifact` calls. -/
structure RemoteStore where
  uploaded : List String
  uploadCalls : Nat
  deriving DecidableEq, Repr

/-- Modelled from the spec: step 1 of the publish protocol, the union of
all artifact hashes referenced across the batch. -/
def collectHashes (objs : List SchemaObject) : List String :=
  (objs.flatMap (fun o => o.refHashes)).dedup

/-- Modelled from the spec: one `upload_artifact` call. -/
def uploadArtifact (r : RemoteStore) (h : String) : RemoteStore :=
  { uploaded := h :: r.uploaded, uploadCalls := r.uploadCalls + 1 }

/-- Modelled from the spec: step 2 of the publish protocol, querying the
remote store per hash and uploading only the absent ones. -/
def ensureUploaded (r : RemoteStore) (hs : List String) : RemoteStore :=
  hs.foldl (fun r h => if h ∈ r.uploaded then r else uploadArtifact r h) r

/-- Modelled from the spec: the artifact-upload phase of `PublishPipeline`
over a batch of schema objects. -/
def publishArtifacts (objs : List SchemaObject) (r : RemoteStore) : RemoteStore :=
  ensureUploaded r (collectHashes objs)

theorem ensureUploaded_uploaded_mono (hs : List String) (r : RemoteStore) :
    ∀ h, h ∈ r.uploaded → h ∈ (ensureUploaded r hs).uploaded := by
  induction hs generalizing r with
  | nil => exact fun h hh => hh
  | cons h0 t ih =>
    intro h hh
    simp only [ensureUploaded, List.foldl_cons]
    by_cases hc : h0 ∈ r.uploaded
    · rw [if_pos hc]
      exact ih r h hh
    · rw [if_neg hc]
      exact ih (uploadArtifact r h0) h (List.mem_cons_of_mem h0 hh)

theorem ensureUploaded_mem (hs : List String) (r : RemoteStore) :
    ∀ h, h ∈ hs → h ∈ (ensureUploaded r hs).uploaded := by
  induction hs generalizing r with
  | nil => intro h hh ; simp at hh
  | cons h0 t ih =>
    intro h hh
    simp only [ensureUploaded, List.foldl_cons]
    rcases List.mem_cons.mp hh with rfl | hh
    · by_cases hc : h ∈ r.uploaded
      · rw [if_pos hc]
        exact ensureUploaded_uploaded_mono t r h hc
      · rw [if_neg hc]
        exact ensureUploaded_uploaded_mono t (uploadArtifact r h) h
          (List.mem_cons_self h r.uploaded)
    · by_cases hc : h0 ∈ r.uploaded
      · rw [if_pos hc]
        exact ih r h hh
      · rw [if_neg hc]
        exact ih (uploadArtifact r h0) h hh

theorem ensureUploaded_all_present (hs : List String) (r : RemoteStore)
    (hall : ∀ h ∈ hs, h ∈ r.uploaded) : ensureUploaded r hs = r := by
  induction hs with
  | nil => rfl
  | cons h0 t ih =>
    simp only [ensureUploaded, List.foldl_cons]
    rw [if_pos (hall h0 (List.mem_cons_self h0 t))]
    exact ih (fun h hh => hall h (List.mem_cons_of_mem h0 hh))

theorem ensureUploaded_calls (hs : List String) (r : RemoteStore)
    (hnd : hs.Nodup) :
    (ensureUploaded r hs).uploadCalls =
      r.uploadCalls + (hs.filter (fun h => decide (h ∉ r.uploaded))).length := by
  induction hs generalizing r with
  | nil => rfl
  | cons h0 t ih =>
    obtain ⟨hh0, hndt⟩ := List.nodup_cons.mp hnd
    simp only [ensureUploaded, List.foldl_cons, List.filter_cons]
    by_cases hc : h0 ∈ r.uploaded
    · rw [if_pos hc]
      have : (decide (h0 ∉ r.uploaded)) = false := by simp [hc]
      rw [this]
      exact ih r hndt
    · rw [if_neg hc]
      have hd : (decide (h0 ∉ r.uploaded)) = true := by simp [hc]
      rw [hd]
      have heq : (t.filter (fun h => decide (h ∉ (uploadArtifact r h0).uploaded))) =
          (t.filter (fun h => decide (h ∉ r.uploaded))) := by
        apply List.filter_congr
        intro h hh
        have hne : h ≠ h0 := fun he => hh0 (he ▸ hh)
        simp only [uploadArtifact, List.mem_cons, decide_eq_decide]
        constructor
        · intro hnot hmem
          exact hnot (Or.inr hmem)
        · intro hnot hmem
          rcases hmem with he | hmem
          · exact hne he
          · exact hnot hmem
      have hfold := ih (uploadArtifact r h0) hndt
      simp only [ensureUploaded] at hfold
      rw [hfold, heq]
      simp only [uploadArtifact, if_true, List.length_cons]
      omega

/-- Claim C2: publish is idempotent with respect to remote uploads.  For
every batch and every remote store, the first run performs one
`upload_artifact` call per distinct referenced hash absent from the store,
the second run over the resulting store performs zero upload calls, and
against a fresh store the two runs together perform exactly one call per
distinct referenced artifact hash. -/
theorem publish_upload_idempotent (objs : List SchemaObject) (r : RemoteStore) :
    (publishArtifacts objs (publishArtifacts objs r)).uploadCalls =
      (publishArtifacts objs r).uploadCalls ∧
    (publishArtifacts objs r).uploadCalls =
      r.uploadCalls +
        ((collectHashes objs).filter (fun h => decide (h ∉ r.uploaded))).length ∧
    (publishArtifacts objs { uploaded := [], uploadCalls := 0 }).uploadCalls =
      (collectHashes objs).length := by
  refine ⟨?_, ?_, ?_⟩
  · have hall : ∀ h ∈ collectHashes objs,
        h ∈ (publishArtifacts objs r).uploaded :=
      fun h hh => ensureUploaded_mem (collectHashes objs) r h hh
    simp only [publishArtifacts] at hall ⊢
    rw [ensureUploaded_all_present (collectHashes objs) _ hall]
  · exact ensureUploaded_calls (collectHashes objs) r (List.nodup_dedup _)
  · rw [show publishArtifacts objs { uploaded := [], uploadCalls := 0 } =
        ensureUploaded { uploaded := [], uploadCalls := 0 } (collectHashes objs)
        from rfl]
    rw [ensureUploaded_calls (collectHashes objs) _ (List.nodup_dedup _)]
    simp

/-- Modelled from the spec: the `LocalArtifactCache` directory, a relation
from hash to the bytes of the file `{cache_root}/{hash}`. -/
abbrev CacheState := List (String × List Nat)

/-- Modelled from the spec: `contains(hash) -> bool`, an existence check
without reading content. -/
def cacheContains (c : CacheState) (h : String) : Bool :=
  (c.find? (fun p => decide (p.1 = h))).isSome

/-- Modelled from the spec: `put(hash, bytes) -> path`, which writes the
bytes under the hash if not already present and skips the write (a no-op)
when present. -/
def cachePut (c : CacheState) (h : String) (bytes : List Nat) : CacheState :=
  if cacheContains c h then c else (h, bytes) :: c

/-- Modelled from the spec: `get(hash) -> bytes | NotFound`, which reads
the bytes for a hash and fails with `ArtifactNotFound` when absent. -/
def cacheGet (c : CacheState) (h : String) : Except String (List Nat) :=
  match c.find? (fun p => decide (p.1 = h)) with
  | some p => Except.ok p.2
  | none => Except.error "ArtifactNotFound"

/-- Claim C3: cache round trip.  For every artifact byte string and every
cache state satisfying the stated content-addressing invariant (an entry
stored under the hash of the artifact holds that artifact, the collision
freedom the spec assumes of the digest), `get` after `put` returns exactly
the artifact bytes. -/
theorem cache_roundtrip (c : CacheState) (a : List Nat)
    (hinv : ∀ p ∈ c, p.1 = hashOf a → p.2 = a) :
    cacheGet (cachePut c (hashOf a) a) (hashOf a) = Except.ok a := by
  by_cases hc : cacheContains c (hashOf a) = true
  · rw [show cachePut c (hashOf a) a = c from if_pos hc]
    obtain ⟨p, hp⟩ : ∃ p, c.find? (fun p => decide (p.1 = hashOf a)) = some p := by
      rcases hfind : c.find? (fun p => decide (p.1 = hashOf a)) with _ | p
      · rw [cacheContains, hfind] at hc
        simp at hc
      · exact ⟨p, hfind⟩
    have hmem := List.mem_of_find?_eq_some hp
    have hkey : p.1 = hashOf a := by
      have := List.find?_some hp
      simpa using this
    rw [cacheGet, hp]
    simp only [hinv p hmem hkey]
  · rw [show cachePut c (hashOf a) a = (hashOf a, a) :: c from if_neg hc]
    rw [cacheGet]
    simp

/-- Witness for C3 on the empty cache at a concrete artifact. -/
theorem cache_roundtrip_witness :
    cacheGet (cachePut [] (hashOf [1, 2, 3]) [1, 2, 3]) (hashOf [1, 2, 3]) =
      Except.ok [1, 2, 3] :=
  cache_roundtrip [] [1, 2, 3] (by simp)

/-- Claim C4: cache entries are write-once.  A `put` for a hash already
present leaves the cache state exactly unchanged, and any `put` leaves the
content read back for every already-present hash unchanged, so no
operation ever overwrites an existing entry. -/
theorem cachePut_never_overwrites (c : CacheState) (h : String)
    (bytes : List Nat) :
    (cacheContains c h = true → cachePut c h bytes = c) ∧
    (∀ h2, cacheContains c h2 = true →
      cacheGet (cachePut c h bytes) h2 = cacheGet c h2) := by
  constructor
  · intro hc
    exact if_pos hc
  · intro h2 hc2
    by_cases hc : cacheContains c h = true
    · rw [show cachePut c h bytes = c from if_pos hc]
    · rw [show cachePut c h bytes = (h, bytes) :: c from if_neg hc]
      have hne : h ≠ h2 := by
        intro he
        rw [he] at hc
        exact hc hc2
      rw [cacheGet, cacheGet, List.find?_cons_of_neg]
      simp [hne]

/-- Witness for C4: a repeated `put` under an existing hash is a no-op and
an unrelated `put` leaves the stored entry readable unchanged. -/
theorem cachePut_never_overwrites_witness :
    cachePut [("k", [1])] "k" [2] = [("k", [1])] ∧
    cacheGet (cachePut [("k", [1])] "j" [2]) "k" = cacheGet [("k", [1])] "k" :=
  ⟨(cachePut_never_overwrites [("k", [1])] "k" [2]).1 (by decide),
   (cachePut_never_overwrites [("k", [1])] "j" [2]).2 "k" (by decide)⟩

/-- Modelled from the spec: the identity the remote service assigns on a
successful publish; the service-assigned id is represented by the input
position of the object in the batch. -/
structure RemoteObjectMetadata where
  objectId : Nat
  objName : String
  deriving DecidableEq, Repr

/-- Modelled from the spec: one entry of the list the pipeline returns, a
metadata record for a published object or a per-object error naming the
object, never a silent omission. -/
inductive PublishOutcome where
  | ok (meta : RemoteObjectMetadata)
  | err (objName : String) (msg : String)
  deriving DecidableEq, Repr

/-- Modelled from the spec: the per-object outcome; an object whose
referenced artifacts include a hash whose upload exhausted its retries is
reported as an error, unrelated objects still succeed. -/
def processObject (i : Nat) (o : SchemaObject) (failedHashes : List String) :
    PublishOutcome :=
  if o.refHashes.any (fun h => failedHashes.contains h) then
    PublishOutcome.err o.name "artifact upload failed"
  else PublishOutcome.ok { objectId := i, objName := o.name }

/-- Modelled from the spec: the list `PublishPipeline` returns, one outcome
per input object in input order. -/
def publishResults (objs : List SchemaObject) (failedHashes : List String) :
    List PublishOutcome :=
  (List.range objs.length).filterMap
    (fun i => (objs.get? i).map (fun o => processObject i o failedHashes))

/-- Modelled from the spec: the same pipeline with the concurrent network
operations completing in the order given by `order`; completions are
collected as they arrive and the output list is assembled per input
position afterwards, which is what makes the output order independent of
the completion order. -/
def publishWithCompletionOrder (objs : List SchemaObject)
    (failedHashes : List String) (order : List Nat) : List PublishOutcome :=
  let completions := order.filterMap
    (fun i => (objs.get? i).map (fun o => (i, processObject i o failedHashes)))
  (List.range objs.length).filterMap
    (fun i => (completions.find? (fun p => decide (p.1 = i))).map (fun p => p.2))

theorem find?_completion (objs : List SchemaObject) (failedHashes : List String)
    (order : List Nat) (i : Nat) (o : SchemaObject)
    (hin : i ∈ order) (hget : objs.get? i = some o) :
    ((order.filterMap
        (fun i => (objs.get? i).map (fun o => (i, processObject i o failedHashes)))).find?
      (fun p => decide (p.1 = i))).map (fun p => p.2) =
      some (processObject i o failedHashes) := by
  induction order with
  | nil => simp at hin
  | cons j t ih =>
    rcases List.mem_cons.mp hin with rfl | hin
    · simp only [List.filterMap_cons, hget, Option.map_some']
      rw [List.find?_cons_of_pos]
      · rfl
      · simp
    · simp only [List.filterMap_cons]
      rcases hj : objs.get? j with _ | oj
      · exact ih hin
      · simp only [Option.map_some']
        by_cases hji : j = i
        · subst hji
          have : oj = o := by
            rw [hj] at hget
            exact Option.some.inj hget
          subst this
          rw [List.find?_cons_of_pos]
          · rfl
          · simp
        · rw [List.find?_cons_of_neg]
          · exact ih hin
          · simp [hji]

theorem publishWithCompletionOrder_eq (objs : List SchemaObject)
    (failedHashes : List String) (order : List Nat)
    (hcover : ∀ i, i < objs.length → i ∈ order) :
    publishWithCompletionOrder objs failedHashes order =
      publishResults objs failedHashes := by
  unfold publishWithCompletionOrder publishResults
  apply List.filterMap_congr
  intro i hi
  have hilt : i < objs.length := List.mem_range.mp hi
  obtain ⟨o, ho⟩ : ∃ o, objs.get? i = some o :=
    ⟨objs.get ⟨i, hilt⟩, List.get?_eq_get hilt⟩
  rw [find?_completion objs failedHashes order i o (hcover i hilt) ho, ho]
  rfl

theorem filterMap_all_some {β : Type} (l : List Nat) (f : Nat → Option β) (d : β)
    (hf : ∀ i ∈ l, (f i).isSome = true) :
    l.filterMap f = l.map (fun i => (f i).getD d) := by
  induction l with
  | nil => rfl
  | cons j t ih =>
    have hj := hf j (List.mem_cons_self j t)
    obtain ⟨b, hb⟩ := Option.isSome_iff_exists.mp hj
    simp only [List.filterMap_cons, List.map_cons, hb, Option.getD_some]
    rw [ih (fun i hi => hf i (List.mem_cons_of_mem j hi))]

theorem publishResults_map (objs : List SchemaObject) (failedHashes : List String) :
    publishResults objs failedHashes = (List.range objs.length).map
      (fun i => ((objs.get? i).map
        (fun o => processObject i o failedHashes)).getD (PublishOutcome.err "" "")) := by
  unfold publishResults
  apply filterMap_all_some
  intro i hi
  have hilt : i < objs.length := List.mem_range.mp hi
  rw [List.get?_eq_get hilt]
  rfl

/-- Claim C5: order preservation and no silent drops.  For every batch,
every set of failed artifact hashes and every completion order that covers
the batch, the outcome list equals the canonical input-order list, has
exactly one entry per input object, and the entry at each input position
is the outcome for the object at that position, an error entry when the
object failed. -/
theorem publish_order_preserved (objs : List SchemaObject)
    (failedHashes : List String) (order : List Nat) (i : Nat)
    (hcover : ∀ j, j < objs.length → j ∈ order) (hi : i < objs.length) :
    publishWithCompletionOrder objs failedHashes order =
      publishResults objs failedHashes ∧
    (publishResults objs failedHashes).length = objs.length ∧
    (publishResults objs failedHashes).get? i =
      (objs.get? i).map (fun o => processObject i o failedHashes) := by
  refine ⟨publishWithCompletionOrder_eq objs failedHashes order hcover, ?_, ?_⟩
  · rw [publishResults_map]
    simp
  · rw [publishResults_map]
    rw [List.get?_map, List.get?_range hi]
    simp only [Option.map_some']
    rw [List.get?_eq_getElem?, List.getElem?_eq_getElem hi]
    simp

/-- Witness for C5: a two-object batch in which the second object fails,
with the network completing in reversed order. -/
theorem publish_order_preserved_witness :
    publishWithCompletionOrder [⟨"A", ["h1"]⟩, ⟨"B", ["h2"]⟩] ["h2"] [1, 0] =
      publishResults [⟨"A", ["h1"]⟩, ⟨"B", ["h2"]⟩] ["h2"] ∧
    (publishResults [⟨"A", ["h1"]⟩, ⟨"B", ["h2"]⟩] ["h2"]).length =
      ([⟨"A", ["h1"]⟩, ⟨"B", ["h2"]⟩] : List SchemaObject).length ∧
    (publishResults [⟨"A", ["h1"]⟩, ⟨"B", ["h2"]⟩] ["h2"]).get? 1 =
      (([⟨"A", ["h1"]⟩, ⟨"B", ["h2"]⟩] : List SchemaObject).get? 1).map
        (fun o => processObject 1 o ["h2"]) :=
  publish_order_preserved [⟨"A", ["h1"]⟩, ⟨"B", ["h2"]⟩] ["h2"] [1, 0] 1
    (by decide) (by decide)

/-- A value stored in one slot of an `XProperty` value list: the C# side
stores strings, 32-bit/64-bit integers and booleans through `PropValue`. -/
inductive XVal where
  | vstr (s : String)
  | vint (n : Int)
  | vbool (b : Bool)
  deriving DecidableEq, Repr

/-- A key of the `XProperties` dictionary.  `DufAttributes` uses the keys
`_dw_AttributeCount` (the count property) and `_dw_Attribute[i].suffix`
(the fifteen per-attribute properties); since that string encoding is
injective (the suffixes contain no brackets), keys are modelled by their
decomposed form, with `entityKey` covering every other key such as the
per-entity attribute values set by `SetOnEntity`. -/
inductive PropKey where
  | countKey
  | attrKey (i : Nat) (suffix : String)
  | entityKey (name : String)
  deriving DecidableEq, Repr

/-- The `XProperties` dictionary of one entity: name to value list, in
insertion order. -/
abbrev XProperties := List (PropKey × List XVal)

/-- Dictionary lookup, the `ContainsKey`/indexer pair used by
`DufDocument.XPropertyGet`. -/
def xlookup (xp : XProperties) (k : PropKey) : Option (List XVal) :=
  (xp.find? (fun p => decide (p.1 = k))).map (fun p => p.2)

/-- Replaces the value list of an existing key in place. -/
def xupdate (xp : XProperties) (k : PropKey) (vs : List XVal) : XProperties :=
  xp.map (fun p => if p.1 = k then (k, vs) else p)

/-- Embedding of `DufDocument.XPropertyGet` (DufDocument.cs lines 420 to
438): returns the value list of the property when present; otherwise, when
`addIfNonExistent`, a fresh property with an empty value list is added and
returned.  The possibly extended dictionary is threaded. -/
def xPropertyGet (xp : XProperties) (k : PropKey) (addIfNonExistent : Bool) :
    Option (List XVal) × XProperties :=
  match xlookup xp k with
  | some vs => (some vs, xp)
  | none =>
      if addIfNonExistent then (some [], xp ++ [(k, [])]) else (none, xp)

/-- Embedding of `DufDocument.XPropertySet` (DufDocument.cs lines 450 to
476): gets or creates the property, then replaces the first element of its
value list, or appends the value when the list is empty. -/
def xPropertySet (xp : XProperties) (k : PropKey) (v : XVal) : XProperties :=
  match xlookup xp k with
  | some vs => xupdate xp k (v :: vs.tail)
  | none => xp ++ [(k, [v])]

/-- Embedding of `string.IsNullOrWhiteSpace` for non-null strings: true
exactly when every character is white space (so also for the empty
string). -/
def isNullOrWhiteSpace (s : String) : Bool :=
  s.toList.all Char.isWhitespace

/-- The in-memory state of one `DufAttributes` collection: the XProperties
of its layer (`null` when the layer has none yet) and the private
`_nameToIndexMap` memo dictionary. -/
structure DufAttrState where
  xprops : Option XProperties
  nameToIndexMap : List (String × Nat)
  deriving DecidableEq, Repr

/-- Embedding of `DufDocument.EnsureXProperties(Layer)`.  The method itself
is not among the provided sources (only its call sites are); modelled from
the analogous `EnsurePrimaryXProperties` (DufAttributes.cs lines 531 to
547): a missing collection is created empty; with a non-null layer the
result is never null. -/
def ensureXProperties (xprops : Option XProperties) : XProperties :=
  xprops.getD []

theorem ensureXProperties_some (xp : XProperties) :
    ensureXProperties (some xp) = xp := rfl

/-- Embedding of the `DufAttributes.Count` getter (DufAttributes.cs lines
56 to 78): when the layer has XProperties, the count property is fetched
with the default `addIfNonExistent = true` (which materialises an empty
count property as a side effect, hence the threaded state); a non-negative
stored `ValueInt32` is the count, anything else yields zero. -/
def countGet (xprops : Option XProperties) : Nat × Option XProperties :=
  match xprops with
  | none => (0, none)
  | some xp =>
      match xPropertyGet xp PropKey.countKey true with
      | (some vs, xp2) =>
          match vs.head? with
          | some (XVal.vint n) => (if 0 ≤ n then n.toNat else 0, some xp2)
          | some _ => (0, some xp2)
          | none => (0, some xp2)
      | (none, xp2) => (0, some xp2)

/-- Embedding of the private `DufAttributes.Count` setter (DufAttributes.cs
lines 80 to 86): ensures the XProperties exist, then stores the value in
the count property. -/
def countSet (xprops : Option XProperties) (value : Int) : Option XProperties :=
  some (xPropertySet (ensureXProperties xprops) PropKey.countKey (XVal.vint value))

/-- One probe of the rebuild loop inside `FindNameIndex` (DufAttributes.cs
lines 108 to 118): read the `Name` property of slot `i` with
`addIfNonExistent = false` and keep it when its first value is a
non-whitespace string; `ValueString` of a non-string value is null, which
`IsNullOrWhiteSpace` rejects. -/
def storedName (xp : XProperties) (i : Nat) : Option String :=
  match xlookup xp (PropKey.attrKey i "Name") with
  | some (XVal.vstr s :: _) => if isNullOrWhiteSpace s then none else some s
  | _ => none

/-- `Dictionary<string, int>` lookup of the memo map. -/
def mapLookup (m : List (String × Nat)) (s : String) : Option Nat :=
  (m.find? (fun p => decide (p.1 = s))).map (fun p => p.2)

/-- `Dictionary<string, int>` indexer assignment: replaces the value of an
existing key, appends a new pair otherwise. -/
def mapInsert (m : List (String × Nat)) (s : String) (v : Nat) :
    List (String × Nat) :=
  if (m.find? (fun p => decide (p.1 = s))).isSome then
    m.map (fun p => if p.1 = s then (s, v) else p)
  else m ++ [(s, v)]

/-- The rebuild loop of `FindNameIndex` (DufAttributes.cs lines 106 to
119): for every slot below the count, a stored non-whitespace name is
entered into the existing memo map (the map is not cleared first). -/
def rebuildNameMap (xp : XProperties) (m : List (String × Nat)) (count : Nat) :
    List (String × Nat) :=
  (List.range count).foldl
    (fun m i =>
      match storedName xp i with
      | some s => mapInsert m s i
      | none => m) m

/-- Embedding of `DufAttributes.FindNameIndex` (DufAttributes.cs lines 102
to 127): reads `Count`, rebuilds the memo map when its size disagrees with
the count, and returns the mapped index or `-1`. -/
def findNameIndex (st : DufAttrState) (name : String) : Int × DufAttrState :=
  let (count, xprops) := countGet st.xprops
  let m :=
    if st.nameToIndexMap.length ≠ count then
      rebuildNameMap (ensureXProperties xprops) st.nameToIndexMap count
    else st.nameToIndexMap
  let result : Int :=
    match mapLookup m name with
    | some i => Int.ofNat i
    | none => -1
  (result, { xprops := xprops, nameToIndexMap := m })

/-- The attribute type enumeration of DufAttributes.cs. -/
inductive DufAttrType where
  | stringType
  | integerType
  | doubleType
  | dateTimeType
  deriving DecidableEq, Repr

/-- `Enum.GetName` over the attribute type enumeration. -/
def nameFromType : DufAttrType → String
  | DufAttrType.stringType => "String"
  | DufAttrType.integerType => "Integer"
  | DufAttrType.doubleType => "Double"
  | DufAttrType.dateTimeType => "DateTime"

/-- `Enum.Parse` over the attribute type enumeration; parsing an unknown
name throws, modelled as `none`. -/
def typeFromName (s : String) : Option DufAttrType :=
  if s = "String" then some DufAttrType.stringType
  else if s = "Integer" then some DufAttrType.integerType
  else if s = "Double" then some DufAttrType.doubleType
  else if s = "DateTime" then some DufAttrType.dateTimeType
  else none

/-- Embedding of `DufAttributes.Attribute`: the fifteen stored properties,
with the typed values the property getters and setters exchange
(DufAttributes.cs lines 348 to 530). -/
structure DufAttr where
  name : String
  type : DufAttrType
  defaultValue : String
  displayInProperties : Bool
  group : String
  prompt : Bool
  valuesList : String
  limitToList : Bool
  lookupList : String
  description : String
  format : String
  required : Bool
  locked : Bool
  displayMode : Int
  weightField : String
  deriving DecidableEq, Repr

/-- Embedding of `Attribute.SetInXProperties` (DufAttributes.cs lines 665
to 682): fifteen `XPropertySet` calls on the indexed property names, in
source order. -/
def setInXProperties (xp : XProperties) (i : Nat) (a : DufAttr) : XProperties :=
  let xp := xPropertySet xp (PropKey.attrKey i "Name") (XVal.vstr a.name)
  let xp := xPropertySet xp (PropKey.attrKey i "Type") (XVal.vstr (nameFromType a.type))
  let xp := xPropertySet xp (PropKey.attrKey i "DefaultValue") (XVal.vstr a.defaultValue)
  let xp := xPropertySet xp (PropKey.attrKey i "DisplayInProperties") (XVal.vbool a.displayInProperties)
  let xp := xPropertySet xp (PropKey.attrKey i "Group") (XVal.vstr a.group)
  let xp := xPropertySet xp (PropKey.attrKey i "Prompt") (XVal.vbool a.prompt)
  let xp := xPropertySet xp (PropKey.attrKey i "ValuesList") (XVal.vstr a.valuesList)
  let xp := xPropertySet xp (PropKey.attrKey i "Description") (XVal.vstr a.description)
  let xp := xPropertySet xp (PropKey.attrKey i "Format") (XVal.vstr a.format)
  let xp := xPropertySet xp (PropKey.attrKey i "LimitToList") (XVal.vbool a.limitToList)
  let xp := xPropertySet xp (PropKey.attrKey i "LookupList") (XVal.vstr a.lookupList)
  let xp := xPropertySet xp (PropKey.attrKey i "Required") (XVal.vbool a.required)
  let xp := xPropertySet xp (PropKey.attrKey i "Locked") (XVal.vbool a.locked)
  let xp := xPropertySet xp (PropKey.attrKey i "DisplayMode") (XVal.vint a.displayMode)
  let xp := xPropertySet xp (PropKey.attrKey i "WeightField") (XVal.vstr a.weightField)
  xp

/-- `ToString` of a stored value as C# renders it, used by
`GetStringOrDefaultFromValue` for non-string values. -/
def csToString : XVal → String
  | XVal.vstr s => s
  | XVal.vint n => toString n
  | XVal.vbool b => if b then "True" else "False"

/-- Embedding of `GetStringOrDefaultFromXProp` composed over
`GetStringOrDefaultFromValue` (DufAttributes.cs lines 716 to 724 and 754
to 757): the first stored value rendered as a string, or the default. -/
def getStringOrDefaultX (xp : XProperties) (k : PropKey) (d : String) : String :=
  match xlookup xp k with
  | some (v :: _) => csToString v
  | _ => d

/-- `bool.TryParse` up to case and surrounding white space. -/
def parseBool (s : String) : Option Bool :=
  if s.trim.toLower = "true" then some true
  else if s.trim.toLower = "false" then some false
  else none

/-- Embedding of `GetBoolOrDefaultFromXProp` (DufAttributes.cs lines 703
to 714 and 739 to 742). -/
def getBoolOrDefaultX (xp : XProperties) (k : PropKey) (d : Bool) : Bool :=
  match xlookup xp k with
  | some (XVal.vbool b :: _) => b
  | some (v :: _) => (parseBool (csToString v)).getD d
  | _ => d

/-- Embedding of `GetIntOrDefaultFromXProp` (DufAttributes.cs lines 726 to
737 and 744 to 747). -/
def getIntOrDefaultX (xp : XProperties) (k : PropKey) (d : Int) : Int :=
  match xlookup xp k with
  | some (XVal.vint n :: _) => n
  | some (v :: _) => ((csToString v).toInt?).getD d
  | _ => d

/-- Embedding of `GetObjectOrDefaultFromXProp` (DufAttributes.cs lines 749
to 752): the raw first stored value, or the default. -/
def getObjectOrDefaultX (xp : XProperties) (k : PropKey) (d : XVal) : XVal :=
  match xlookup xp k with
  | some (v :: _) => v
  | _ => d

/-- Embedding of `Attribute.GetFromXProperties` (DufAttributes.cs lines
644 to 663) composed with the fifteen-argument constructor (which stores
`DefaultValue = defaultvalue.ToString()`), using the defaults of
`PropertyNamesAndDefaults`; an ill-formed `Type` string makes `Enum.Parse`
throw, modelled as `none`. -/
def getFromXProperties (xp : XProperties) (i : Nat) : Option DufAttr :=
  match typeFromName (getStringOrDefaultX xp (PropKey.attrKey i "Type") "String") with
  | none => none
  | some t => some
      { name := getStringOrDefaultX xp (PropKey.attrKey i "Name") ""
        type := t
        defaultValue := csToString (getObjectOrDefaultX xp (PropKey.attrKey i "DefaultValue") (XVal.vstr ""))
        displayInProperties := getBoolOrDefaultX xp (PropKey.attrKey i "DisplayInProperties") true
        group := getStringOrDefaultX xp (PropKey.attrKey i "Group") ""
        prompt := getBoolOrDefaultX xp (PropKey.attrKey i "Prompt") false
        valuesList := getStringOrDefaultX xp (PropKey.attrKey i "ValuesList") ""
        limitToList := getBoolOrDefaultX xp (PropKey.attrKey i "LimitToList") false
        lookupList := getStringOrDefaultX xp (PropKey.attrKey i "LookupList") ""
        description := getStringOrDefaultX xp (PropKey.attrKey i "Description") ""
        format := getStringOrDefaultX xp (PropKey.attrKey i "Format") ""
        required := getBoolOrDefaultX xp (PropKey.attrKey i "Required") false
        locked := getBoolOrDefaultX xp (PropKey.attrKey i "Locked") false
        displayMode := getIntOrDefaultX xp (PropKey.attrKey i "DisplayMode") 0
        weightField := getStringOrDefaultX xp (PropKey.attrKey i "WeightField") "" }

/-- Embedding of the loop body of `DufAttributes.Add(bool, params)` for a
single attribute (DufAttributes.cs lines 145 to 170): a whitespace name is
skipped; otherwise the index is looked up, and when absent or
`replaceExisting`, the XProperties are ensured, a new attribute takes the
index `Count++`, the memo map is updated and the fifteen properties are
written. -/
def addOne (replaceExisting : Bool) (acc : DufAttrState × Bool) (a : DufAttr) :
    DufAttrState × Bool :=
  let (st, added) := acc
  if isNullOrWhiteSpace a.name then (st, added)
  else
    let (index, st1) := findNameIndex st a.name
    if index < 0 ∨ replaceExisting = true then
      let st2 : DufAttrState := { st1 with xprops := some (ensureXProperties st1.xprops) }
      let (index2, st3) :=
        if index < 0 then
          let (c, xprops2) := countGet st2.xprops
          (c, { st2 with xprops := countSet xprops2 (Int.ofNat c + 1) })
        else (index.toNat, st2)
      let m2 := mapInsert st3.nameToIndexMap a.name index2
      let xp2 := setInXProperties (ensureXProperties st3.xprops) index2 a
      ({ xprops := some xp2, nameToIndexMap := m2 }, true)
    else (st1, added)

/-- Embedding of `DufAttributes.Add(bool, params Attribute[])`
(DufAttributes.cs lines 141 to 173): folds the loop body over the
attributes, returning the final state and whether any attribute was
written. -/
def dufAdd (replaceExisting : Bool) (attrs : List DufAttr) (st : DufAttrState) :
    DufAttrState × Bool :=
  attrs.foldl (addOne replaceExisting) (st, false)

theorem xlookup_nil (k : PropKey) : xlookup [] k = none := rfl

theorem xlookup_append_ne (xp : XProperties) (k k2 : PropKey) (vs : List XVal)
    (h : k2 ≠ k) : xlookup (xp ++ [(k, vs)]) k2 = xlookup xp k2 := by
  unfold xlookup
  rw [List.find?_append]
  have hone : List.find? (fun p => decide (p.1 = k2)) [(k, vs)] = none := by
    simp [List.find?, h.symm]
  rw [hone, Option.or_none]

theorem xlookup_append_self (xp : XProperties) (k : PropKey) (vs : List XVal)
    (h : xlookup xp k = none) : xlookup (xp ++ [(k, vs)]) k = some vs := by
  unfold xlookup at h ⊢
  rw [List.find?_append]
  have hf : xp.find? (fun p => decide (p.1 = k)) = none :=
    Option.map_eq_none.mp h
  rw [hf]
  simp [Option.or, List.find?]

theorem xlookup_update_self (xp : XProperties) (k : PropKey)
    (vs vs0 : List XVal) (h : xlookup xp k = some vs0) :
    xlookup (xupdate xp k vs) k = some vs := by
  induction xp with
  | nil => simp [xlookup] at h
  | cons p t ih =>
    by_cases hp : p.1 = k
    · simp [xlookup, xupdate, List.find?, hp]
    · have h2 : xlookup t k = some vs0 := by
        simpa [xlookup, List.find?, hp] using h
      simpa [xlookup, xupdate, List.find?, hp] using ih h2

theorem xlookup_update_ne (xp : XProperties) (k k2 : PropKey)
    (vs : List XVal) (h : k2 ≠ k) :
    xlookup (xupdate xp k vs) k2 = xlookup xp k2 := by
  induction xp with
  | nil => rfl
  | cons p t ih =>
    by_cases hp : p.1 = k
    · have hne : ¬(k = k2) := fun he => h he.symm
      simp only [xlookup, xupdate, List.map_cons, List.find?, if_pos hp]
      rw [show (decide (k = k2)) = false by simp [hne]]
      rw [show (decide (p.1 = k2)) = false by simp [hp ▸ hne]]
      simpa [xlookup, xupdate] using ih
    · simp only [xlookup, xupdate, List.map_cons, List.find?, if_neg hp]
      by_cases hp2 : p.1 = k2
      · rw [show (decide (p.1 = k2)) = true by simp [hp2]]
      · rw [show (decide (p.1 = k2)) = false by simp [hp2]]
        simpa [xlookup, xupdate] using ih

/-- The first stored value of a property, the only part the readers use. -/
def xheadAt (xp : XProperties) (k : PropKey) : Option XVal :=
  (xlookup xp k).bind List.head?

theorem xheadAt_set_self (xp : XProperties) (k : PropKey) (v : XVal) :
    xheadAt (xPropertySet xp k v) k = some v := by
  unfold xheadAt xPropertySet
  rcases hl : xlookup xp k with _ | vs
  · rw [xlookup_append_self xp k [v] hl]
    rfl
  · rw [xlookup_update_self xp k (v :: vs.tail) vs hl]
    rfl

theorem xheadAt_set_ne (xp : XProperties) (k k2 : PropKey) (v : XVal)
    (h : k2 ≠ k) : xheadAt (xPropertySet xp k v) k2 = xheadAt xp k2 := by
  unfold xheadAt xPropertySet
  rcases hl : xlookup xp k with _ | vs
  · rw [xlookup_append_ne xp k k2 [v] h]
  · rw [xlookup_update_ne xp k k2 (v :: vs.tail) h]

theorem xlookup_set_ne (xp : XProperties) (k k2 : PropKey) (v : XVal)
    (h : k2 ≠ k) : xlookup (xPropertySet xp k v) k2 = xlookup xp k2 := by
  unfold xPropertySet
  rcases hl : xlookup xp k with _ | vs
  · rw [xlookup_append_ne xp k k2 [v] h]
  · rw [xlookup_update_ne xp k k2 (v :: vs.tail) h]

theorem xheadAt_set_self_lookup (xp : XProperties) (k : PropKey) (v : XVal) :
    ∃ rest, xlookup (xPropertySet xp k v) k = some (v :: rest) := by
  unfold xPropertySet
  rcases hl : xlookup xp k with _ | vs
  · exact ⟨[], xlookup_append_self xp k [v] hl⟩
  · exact ⟨vs.tail, xlookup_update_self xp k (v :: vs.tail) vs hl⟩

theorem getStringOrDefaultX_eq (xp : XProperties) (k : PropKey) (d : String) :
    getStringOrDefaultX xp k d =
      (match xheadAt xp k with
       | some v => csToString v
       | none => d) := by
  unfold getStringOrDefaultX xheadAt
  rcases xlookup xp k with _ | vs
  · rfl
  · rcases vs with _ | ⟨v, r⟩
    · rfl
    · cases v <;> rfl

theorem getBoolOrDefaultX_eq (xp : XProperties) (k : PropKey) (d : Bool) :
    getBoolOrDefaultX xp k d =
      (match xheadAt xp k with
       | some (XVal.vbool b) => b
       | some v => (parseBool (csToString v)).getD d
       | none => d) := by
  unfold getBoolOrDefaultX xheadAt
  rcases xlookup xp k with _ | vs
  · rfl
  · rcases vs with _ | ⟨v, r⟩
    · rfl
    · cases v <;> rfl

theorem getIntOrDefaultX_eq (xp : XProperties) (k : PropKey) (d : Int) :
    getIntOrDefaultX xp k d =
      (match xheadAt xp k with
       | some (XVal.vint n) => n
       | some v => ((csToString v).toInt?).getD d
       | none => d) := by
  unfold getIntOrDefaultX xheadAt
  rcases xlookup xp k with _ | vs
  · rfl
  · rcases vs with _ | ⟨v, r⟩
    · rfl
    · cases v <;> rfl

theorem getObjectOrDefaultX_eq (xp : XProperties) (k : PropKey) (d : XVal) :
    getObjectOrDefaultX xp k d =
      (match xheadAt xp k with
       | some v => v
       | none => d) := by
  unfold getObjectOrDefaultX xheadAt
  rcases xlookup xp k with _ | vs
  · rfl
  · rcases vs with _ | ⟨v, r⟩
    · rfl
    · cases v <;> rfl

theorem storedName_eq (xp : XProperties) (i : Nat) :
    storedName xp i =
      (match xheadAt xp (PropKey.attrKey i "Name") with
       | some (XVal.vstr s) => if isNullOrWhiteSpace s then none else some s
       | _ => none) := by
  unfold storedName xheadAt
  rcases xlookup xp (PropKey.attrKey i "Name") with _ | vs
  · rfl
  · rcases vs with _ | ⟨v, r⟩
    · rfl
    · cases v <;> rfl

theorem typeFromName_nameFromType (t : DufAttrType) :
    typeFromName (nameFromType t) = some t := by
  cases t <;> rfl

theorem mapLookup_mapInsert_self (m : List (String × Nat)) (s : String) (v : Nat) :
    mapLookup (mapInsert m s v) s = some v := by
  unfold mapInsert
  by_cases hf : (m.find? (fun p => decide (p.1 = s))).isSome = true
  · rw [if_pos hf]
    induction m with
    | nil => simp at hf
    | cons p t ih =>
      by_cases hp : p.1 = s
      · simp [mapLookup, List.find?, hp]
      · have hf2 : (t.find? (fun p => decide (p.1 = s))).isSome = true := by
          simpa [List.find?, hp] using hf
        simpa [mapLookup, List.find?, hp] using ih hf2
  · rw [if_neg hf]
    have hnone : m.find? (fun p => decide (p.1 = s)) = none :=
      Option.not_isSome_iff_eq_none.mp hf
    unfold mapLookup
    rw [List.find?_append, hnone]
    simp [Option.or, List.find?]

theorem xheadAt_setInX_other (xp : XProperties) (i : Nat) (a : DufAttr)
    (k : PropKey) (hk : ∀ s, k ≠ PropKey.attrKey i s) :
    xheadAt (setInXProperties xp i a) k = xheadAt xp k := by
  simp only [setInXProperties]
  rw [xheadAt_set_ne _ _ _ _ (hk _)]
  rw [xheadAt_set_ne _ _ _ _ (hk _)]
  rw [xheadAt_set_ne _ _ _ _ (hk _)]
  rw [xheadAt_set_ne _ _ _ _ (hk _)]
  rw [xheadAt_set_ne _ _ _ _ (hk _)]
  rw [xheadAt_set_ne _ _ _ _ (hk _)]
  rw [xheadAt_set_ne _ _ _ _ (hk _)]
  rw [xheadAt_set_ne _ _ _ _ (hk _)]
  rw [xheadAt_set_ne _ _ _ _ (hk _)]
  rw [xheadAt_set_ne _ _ _ _ (hk _)]
  rw [xheadAt_set_ne _ _ _ _ (hk _)]
  rw [xheadAt_set_ne _ _ _ _ (hk _)]
  rw [xheadAt_set_ne _ _ _ _ (hk _)]
  rw [xheadAt_set_ne _ _ _ _ (hk _)]
  rw [xheadAt_set_ne _ _ _ _ (hk _)]


theorem xlookup_setInX_other (xp : XProperties) (i : Nat) (a : DufAttr)
    (k : PropKey) (hk : ∀ s, k ≠ PropKey.attrKey i s) :
    xlookup (setInXProperties xp i a) k = xlookup xp k := by
  simp only [setInXProperties]
  rw [xlookup_set_ne _ _ _ _ (hk _)]
  rw [xlookup_set_ne _ _ _ _ (hk _)]
  rw [xlookup_set_ne _ _ _ _ (hk _)]
  rw [xlookup_set_ne _ _ _ _ (hk _)]
  rw [xlookup_set_ne _ _ _ _ (hk _)]
  rw [xlookup_set_ne _ _ _ _ (hk _)]
  rw [xlookup_set_ne _ _ _ _ (hk _)]
  rw [xlookup_set_ne _ _ _ _ (hk _)]
  rw [xlookup_set_ne _ _ _ _ (hk _)]
  rw [xlookup_set_ne _ _ _ _ (hk _)]
  rw [xlookup_set_ne _ _ _ _ (hk _)]
  rw [xlookup_set_ne _ _ _ _ (hk _)]
  rw [xlookup_set_ne _ _ _ _ (hk _)]
  rw [xlookup_set_ne _ _ _ _ (hk _)]
  rw [xlookup_set_ne _ _ _ _ (hk _)]


theorem xheadAt_setInX_Name (xp : XProperties) (i : Nat) (a : DufAttr) :
    xheadAt (setInXProperties xp i a) (PropKey.attrKey i "Name") =
      some (XVal.vstr a.name) := by
  simp only [setInXProperties]
  rw [xheadAt_set_ne _ _ _ _ (by simp)]
  rw [xheadAt_set_ne _ _ _ _ (by simp)]
  rw [xheadAt_set_ne _ _ _ _ (by simp)]
  rw [xheadAt_set_ne _ _ _ _ (by simp)]
  rw [xheadAt_set_ne _ _ _ _ (by simp)]
  rw [xheadAt_set_ne _ _ _ _ (by simp)]
  rw [xheadAt_set_ne _ _ _ _ (by simp)]
  rw [xheadAt_set_ne _ _ _ _ (by simp)]
  rw [xheadAt_set_ne _ _ _ _ (by simp)]
  rw [xheadAt_set_ne _ _ _ _ (by simp)]
  rw [xheadAt_set_ne _ _ _ _ (by simp)]
  rw [xheadAt_set_ne _ _ _ _ (by simp)]
  rw [xheadAt_set_ne _ _ _ _ (by simp)]
  rw [xheadAt_set_ne _ _ _ _ (by simp)]
  exact xheadAt_set_self _ _ _

theorem xheadAt_setInX_Type (xp : XProperties) (i : Nat) (a : DufAttr) :
    xheadAt (setInXProperties xp i a) (PropKey.attrKey i "Type") =
      some (XVal.vstr (nameFromType a.type)) := by
  simp only [setInXProperties]
  rw [xheadAt_set_ne _ _ _ _ (by simp)]
  rw [xheadAt_set_ne _ _ _ _ (by simp)]
  rw [xheadAt_set_ne _ _ _ _ (by simp)]
  rw [xheadAt_set_ne _ _ _ _ (by simp)]
  rw [xheadAt_set_ne _ _ _ _ (by simp)]
  rw [xheadAt_set_ne _ _ _ _ (by simp)]
  rw [xheadAt_set_ne _ _ _ _ (by simp)]
  rw [xheadAt_set_ne _ _ _ _ (by simp)]
  rw [xheadAt_set_ne _ _ _ _ (by simp)]
  rw [xheadAt_set_ne _ _ _ _ (by simp)]
  rw [xheadAt_set_ne _ _ _ _ (by simp)]
  rw [xheadAt_set_ne _ _ _ _ (by simp)]
  rw [xheadAt_set_ne _ _ _ _ (by simp)]
  exact xheadAt_set_self _ _ _

theorem xheadAt_setInX_DefaultValue (xp : XProperties) (i : Nat) (a : DufAttr) :
    xheadAt (setInXProperties xp i a) (PropKey.attrKey i "DefaultValue") =
      some (XVal.vstr a.defaultValue) := by
  simp only [setInXProperties]
  rw [xheadAt_set_ne _ _ _ _ (by simp)]
  rw [xheadAt_set_ne _ _ _ _ (by simp)]
  rw [xheadAt_set_ne _ _ _ _ (by simp)]
  rw [xheadAt_set_ne _ _ _ _ (by simp)]
  rw [xheadAt_set_ne _ _ _ _ (by simp)]
  rw [xheadAt_set_ne _ _ _ _ (by simp)]
  rw [xheadAt_set_ne _ _ _ _ (by simp)]
  rw [xheadAt_set_ne _ _ _ _ (by simp)]
  rw [xheadAt_set_ne _ _ _ _ (by simp)]
  rw [xheadAt_set_ne _ _ _ _ (by simp)]
  rw [xheadAt_set_ne _ _ _ _ (by simp)]
  rw [xheadAt_set_ne _ _ _ _ (by simp)]
  exact xheadAt_set_self _ _ _

theorem xheadAt_setInX_DisplayInProperties (xp : XProperties) (i : Nat) (a : DufAttr) :
    xheadAt (setInXProperties xp i a) (PropKey.attrKey i "DisplayInProperties") =
      some (XVal.vbool a.displayInProperties) := by
  simp only [setInXProperties]
  rw [xheadAt_set_ne _ _ _ _ (by simp)]
  rw [xheadAt_set_ne _ _ _ _ (by simp)]
  rw [xheadAt_set_ne _ _ _ _ (by simp)]
  rw [xheadAt_set_ne _ _ _ _ (by simp)]
  rw [xheadAt_set_ne _ _ _ _ (by simp)]
  rw [xheadAt_set_ne _ _ _ _ (by simp)]
  rw [xheadAt_set_ne _ _ _ _ (by simp)]
  rw [xheadAt_set_ne _ _ _ _ (by simp)]
  rw [xheadAt_set_ne _ _ _ _ (by simp)]
  rw [xheadAt_set_ne _ _ _ _ (by simp)]
  rw [xheadAt_set_ne _ _ _ _ (by simp)]
  exact xheadAt_set_self _ _ _

theorem xheadAt_setInX_Group (xp : XProperties) (i : Nat) (a : DufAttr) :
    xheadAt (setInXProperties xp i a) (PropKey.attrKey i "Group") =
      some (XVal.vstr a.group) := by
  simp only [setInXProperties]
  rw [xheadAt_set_ne _ _ _ _ (by simp)]
  rw [xheadAt_set_ne _ _ _ _ (by simp)]
  rw [xheadAt_set_ne _ _ _ _ (by simp)]
  rw [xheadAt_set_ne _ _ _ _ (by simp)]
  rw [xheadAt_set_ne _ _ _ _ (by simp)]
  rw [xheadAt_set_ne _ _ _ _ (by simp)]
  rw [xheadAt_set_ne _ _ _ _ (by simp)]
  rw [xheadAt_set_ne _ _ _ _ (by simp)]
  rw [xheadAt_set_ne _ _ _ _ (by simp)]
  rw [xheadAt_set_ne _ _ _ _ (by simp)]
  exact xheadAt_set_self _ _ _

theorem xheadAt_setInX_Prompt (xp : XProperties) (i : Nat) (a : DufAttr) :
    xheadAt (setInXProperties xp i a) (PropKey.attrKey i "Prompt") =
      some (XVal.vbool a.prompt) := by
  simp only [setInXProperties]
  rw [xheadAt_set_ne _ _ _ _ (by simp)]
  rw [xheadAt_set_ne _ _ _ _ (by simp)]
  rw [xheadAt_set_ne _ _ _ _ (by simp)]
  rw [xheadAt_set_ne _ _ _ _ (by simp)]
  rw [xheadAt_set_ne _ _ _ _ (by simp)]
  rw [xheadAt_set_ne _ _ _ _ (by simp)]
  rw [xheadAt_set_ne _ _ _ _ (by simp)]
  rw [xheadAt_set_ne _ _ _ _ (by simp)]
  rw [xheadAt_set_ne _ _ _ _ (by simp)]
  exact xheadAt_set_self _ _ _

theorem xheadAt_setInX_ValuesList (xp : XProperties) (i : Nat) (a : DufAttr) :
    xheadAt (setInXProperties xp i a) (PropKey.attrKey i "ValuesList") =
      some (XVal.vstr a.valuesList) := by
  simp only [setInXProperties]
  rw [xheadAt_set_ne _ _ _ _ (by simp)]
  rw [xheadAt_set_ne _ _ _ _ (by simp)]
  rw [xheadAt_set_ne _ _ _ _ (by simp)]
  rw [xheadAt_set_ne _ _ _ _ (by simp)]
  rw [xheadAt_set_ne _ _ _ _ (by simp)]
  rw [xheadAt_set_ne _ _ _ _ (by simp)]
  rw [xheadAt_set_ne _ _ _ _ (by simp)]
  rw [xheadAt_set_ne _ _ _ _ (by simp)]
  exact xheadAt_set_self _ _ _

theorem xheadAt_setInX_Description (xp : XProperties) (i : Nat) (a : DufAttr) :
    xheadAt (setInXProperties xp i a) (PropKey.attrKey i "Description") =
      some (XVal.vstr a.description) := by
  simp only [setInXProperties]
  rw [xheadAt_set_ne _ _ _ _ (by simp)]
  rw [xheadAt_set_ne _ _ _ _ (by simp)]
  rw [xheadAt_set_ne _ _ _ _ (by simp)]
  rw [xheadAt_set_ne _ _ _ _ (by simp)]
  rw [xheadAt_set_ne _ _ _ _ (by simp)]
  rw [xheadAt_set_ne _ _ _ _ (by simp)]
  rw [xheadAt_set_ne _ _ _ _ (by simp)]
  exact xheadAt_set_self _ _ _

theorem xheadAt_setInX_Format (xp : XProperties) (i : Nat) (a : DufAttr) :
    xheadAt (setInXProperties xp i a) (PropKey.attrKey i "Format") =
      some (XVal.vstr a.format) := by
  simp only [setInXProperties]
  rw [xheadAt_set_ne _ _ _ _ (by simp)]
  rw [xheadAt_set_ne _ _ _ _ (by simp)]
  rw [xheadAt_set_ne _ _ _ _ (by simp)]
  rw [xheadAt_set_ne _ _ _ _ (by simp)]
  rw [xheadAt_set_ne _ _ _ _ (by simp)]
  rw [xheadAt_set_ne _ _ _ _ (by simp)]
  exact xheadAt_set_self _ _ _

theorem xheadAt_setInX_LimitToList (xp : XProperties) (i : Nat) (a : DufAttr) :
    xheadAt (setInXProperties xp i a) (PropKey.attrKey i "LimitToList") =
      some (XVal.vbool a.limitToList) := by
  simp only [setInXProperties]
  rw [xheadAt_set_ne _ _ _ _ (by simp)]
  rw [xheadAt_set_ne _ _ _ _ (by simp)]
  rw [xheadAt_set_ne _ _ _ _ (by simp)]
  rw [xheadAt_set_ne _ _ _ _ (by simp)]
  rw [xheadAt_set_ne _ _ _ _ (by simp)]
  exact xheadAt_set_self _ _ _

theorem xheadAt_setInX_LookupList (xp : XProperties) (i : Nat) (a : DufAttr) :
    xheadAt (setInXProperties xp i a) (PropKey.attrKey i "LookupList") =
      some (XVal.vstr a.lookupList) := by
  simp only [setInXProperties]
  rw [xheadAt_set_ne _ _ _ _ (by simp)]
  rw [xheadAt_set_ne _ _ _ _ (by simp)]
  rw [xheadAt_set_ne _ _ _ _ (by simp)]
  rw [xheadAt_set_ne _ _ _ _ (by simp)]
  exact xheadAt_set_self _ _ _

theorem xheadAt_setInX_Required (xp : XProperties) (i : Nat) (a : DufAttr) :
    xheadAt (setInXProperties xp i a) (PropKey.attrKey i "Required") =
      some (XVal.vbool a.required) := by
  simp only [setInXProperties]
  rw [xheadAt_set_ne _ _ _ _ (by simp)]
  rw [xheadAt_set_ne _ _ _ _ (by simp)]
  rw [xheadAt_set_ne _ _ _ _ (by simp)]
  exact xheadAt_set_self _ _ _

theorem xheadAt_setInX_Locked (xp : XProperties) (i : Nat) (a : DufAttr) :
    xheadAt (setInXProperties xp i a) (PropKey.attrKey i "Locked") =
      some (XVal.vbool a.locked) := by
  simp only [setInXProperties]
  rw [xheadAt_set_ne _ _ _ _ (by simp)]
  rw [xheadAt_set_ne _ _ _ _ (by simp)]
  exact xheadAt_set_self _ _ _

theorem xheadAt_setInX_DisplayMode (xp : XProperties) (i : Nat) (a : DufAttr) :
    xheadAt (setInXProperties xp i a) (PropKey.attrKey i "DisplayMode") =
      some (XVal.vint a.displayMode) := by
  simp only [setInXProperties]
  rw [xheadAt_set_ne _ _ _ _ (by simp)]
  exact xheadAt_set_self _ _ _

theorem xheadAt_setInX_WeightField (xp : XProperties) (i : Nat) (a : DufAttr) :
    xheadAt (setInXProperties xp i a) (PropKey.attrKey i "WeightField") =
      some (XVal.vstr a.weightField) := by
  simp only [setInXProperties]
  exact xheadAt_set_self _ _ _

theorem getFromXProperties_setInX (xp : XProperties) (i : Nat) (a : DufAttr) :
    getFromXProperties (setInXProperties xp i a) i = some a := by
  unfold getFromXProperties
  rw [getStringOrDefaultX_eq, xheadAt_setInX_Type]
  simp only [csToString, typeFromName_nameFromType]
  rw [getStringOrDefaultX_eq, xheadAt_setInX_Name]
  rw [getObjectOrDefaultX_eq, xheadAt_setInX_DefaultValue]
  rw [getBoolOrDefaultX_eq, xheadAt_setInX_DisplayInProperties]
  rw [getStringOrDefaultX_eq, xheadAt_setInX_Group]
  rw [getBoolOrDefaultX_eq, xheadAt_setInX_Prompt]
  rw [getStringOrDefaultX_eq, xheadAt_setInX_ValuesList]
  rw [getBoolOrDefaultX_eq, xheadAt_setInX_LimitToList]
  rw [getStringOrDefaultX_eq, xheadAt_setInX_LookupList]
  rw [getStringOrDefaultX_eq, xheadAt_setInX_Description]
  rw [getStringOrDefaultX_eq, xheadAt_setInX_Format]
  rw [getBoolOrDefaultX_eq, xheadAt_setInX_Required]
  rw [getBoolOrDefaultX_eq, xheadAt_setInX_Locked]
  rw [getIntOrDefaultX_eq, xheadAt_setInX_DisplayMode]
  rw [getStringOrDefaultX_eq, xheadAt_setInX_WeightField]
  rfl

theorem countGet_some_state (xp : XProperties) :
    ∃ xp2, (countGet (some xp)).2 = some xp2 := by
  simp only [countGet, xPropertyGet]
  rcases hl : xlookup xp PropKey.countKey with _ | vs
  · exact ⟨xp ++ [(PropKey.countKey, [])], rfl⟩
  · rcases vs with _ | ⟨v, r⟩
    · exact ⟨xp, rfl⟩
    · cases v <;> exact ⟨xp, rfl⟩

theorem countGet_idem (x : Option XProperties) :
    countGet (countGet x).2 = ((countGet x).1, (countGet x).2) := by
  rcases x with _ | xp
  · rfl
  · rcases hl : xlookup xp PropKey.countKey with _ | vs
    · have hA : xlookup (xp ++ [(PropKey.countKey, [])]) PropKey.countKey =
          some [] := xlookup_append_self xp PropKey.countKey [] hl
      simp [countGet, xPropertyGet, hl, hA]
    · rcases vs with _ | ⟨v, r⟩
      · simp [countGet, xPropertyGet, hl]
      · cases v <;> simp [countGet, xPropertyGet, hl]

theorem countGet_ensure_val (x : Option XProperties) :
    (countGet (some (ensureXProperties (countGet x).2))).1 = (countGet x).1 := by
  rcases x with _ | xp
  · rfl
  · obtain ⟨xp2, h2⟩ := countGet_some_state xp
    rw [h2]
    rw [show ensureXProperties (some xp2) = xp2 from rfl]
    have := countGet_idem (some xp)
    rw [h2] at this
    rw [show (countGet (some xp2)).1 = (countGet (some xp2)).fst from rfl]
    rw [show countGet (some xp2) = ((countGet (some xp)).1, some xp2) from this]

theorem countGet_val_of_head (xp : XProperties) (n : Int) (hn : 0 ≤ n)
    (rest : List XVal)
    (h : xlookup xp PropKey.countKey = some (XVal.vint n :: rest)) :
    (countGet (some xp)).1 = n.toNat := by
  simp [countGet, xPropertyGet, h, hn]

theorem countGet_state_of_found (xp : XProperties) (vs : List XVal)
    (h : xlookup xp PropKey.countKey = some vs) :
    (countGet (some xp)).2 = some xp := by
  simp only [countGet, xPropertyGet, h]
  rcases vs with _ | ⟨v, r⟩
  · rfl
  · cases v <;> rfl

theorem rebuildNameMap_last (xp : XProperties) (m : List (String × Nat))
    (count : Nat) (s : String) (h : storedName xp count = some s) :
    mapLookup (rebuildNameMap xp m (count + 1)) s = some count := by
  unfold rebuildNameMap
  rw [List.range_succ, List.foldl_append]
  simp only [List.foldl_cons, List.foldl_nil, h]
  exact mapLookup_mapInsert_self _ _ _

theorem countGet_preserves_attr (x : Option XProperties) (i : Nat) (s : String) :
    xlookup (ensureXProperties (countGet x).2) (PropKey.attrKey i s) =
      xlookup (ensureXProperties x) (PropKey.attrKey i s) := by
  rcases x with _ | xp
  · rfl
  · rcases hl : xlookup xp PropKey.countKey with _ | vs
    · have hstate : (countGet (some xp)).2 = some (xp ++ [(PropKey.countKey, [])]) := by
        simp [countGet, xPropertyGet, hl]
      rw [hstate]
      exact xlookup_append_ne xp PropKey.countKey (PropKey.attrKey i s) [] (by simp)
    · rw [countGet_state_of_found xp vs hl]

theorem findNameIndex_eq (st : DufAttrState) (name : String) :
    findNameIndex st name =
      (match mapLookup
          (if st.nameToIndexMap.length ≠ (countGet st.xprops).1 then
            rebuildNameMap (ensureXProperties (countGet st.xprops).2)
              st.nameToIndexMap (countGet st.xprops).1
          else st.nameToIndexMap) name with
       | some i => Int.ofNat i
       | none => -1,
       { xprops := (countGet st.xprops).2,
         nameToIndexMap :=
          if st.nameToIndexMap.length ≠ (countGet st.xprops).1 then
            rebuildNameMap (ensureXProperties (countGet st.xprops).2)
              st.nameToIndexMap (countGet st.xprops).1
          else st.nameToIndexMap }) := by
  unfold findNameIndex
  rcases hcg : countGet st.xprops with ⟨c, x⟩
  rfl

theorem addOne_new_eq (st : DufAttrState) (a : DufAttr)
    (hname : isNullOrWhiteSpace a.name = false)
    (st1 : DufAttrState) (hfni : findNameIndex st a.name = (-1, st1))
    (c : Nat) (x2 : Option XProperties)
    (hcg2 : countGet (some (ensureXProperties st1.xprops)) = (c, x2)) :
    addOne false (st, false) a =
      ({ xprops := some (setInXProperties
            (ensureXProperties (countSet x2 (Int.ofNat c + 1))) c a),
         nameToIndexMap := mapInsert st1.nameToIndexMap a.name c }, true) := by
  simp only [addOne, hname, hfni, hcg2, Bool.false_eq_true, if_false]
  norm_num

theorem addOne_existing_eq (st : DufAttrState) (a : DufAttr)
    (hname : isNullOrWhiteSpace a.name = false)
    (i : Nat) (st1 : DufAttrState)
    (hfni : findNameIndex st a.name = (Int.ofNat i, st1)) :
    addOne false (st, false) a = (st1, false) := by
  simp only [addOne, hname, hfni, Bool.false_eq_true, if_false]
  rw [if_neg]
  rintro (hlt | hfalse)
  · rw [Int.ofNat_eq_natCast] at hlt
    omega
  · exact absurd hfalse (by simp)

theorem findNameIndex_post (xpF : XProperties) (m2 : List (String × Nat))
    (name : String) (c : Nat) (r : List XVal)
    (hrF : xlookup xpF PropKey.countKey = some (XVal.vint (Int.ofNat c + 1) :: r))
    (hsn : storedName xpF c = some name)
    (hml : mapLookup m2 name = some c) :
    (findNameIndex { xprops := some xpF, nameToIndexMap := m2 } name).1 =
      Int.ofNat c := by
  have hcF : (countGet (some xpF)).1 = c + 1 := by
    rw [countGet_val_of_head xpF (Int.ofNat c + 1)
      (by rw [Int.ofNat_eq_natCast] ; omega) r hrF]
    rw [Int.ofNat_eq_natCast]
    omega
  have hstate : (countGet (some xpF)).2 = some xpF :=
    countGet_state_of_found _ _ hrF
  rw [findNameIndex_eq]
  rw [show ({ xprops := some xpF, nameToIndexMap := m2 } : DufAttrState).xprops
    = some xpF from rfl]
  rw [show ({ xprops := some xpF, nameToIndexMap := m2 } :
    DufAttrState).nameToIndexMap = m2 from rfl]
  rw [hcF, hstate]
  rw [show ensureXProperties (some xpF) = xpF from rfl]
  by_cases hlen : m2.length ≠ c + 1
  · rw [if_pos hlen]
    rw [rebuildNameMap_last xpF m2 c name hsn]
  · rw [if_neg hlen]
    rw [hml]

/-- What `Add` does for an attribute whose name is not yet present: the
attribute is stored (readable back in full from the slot at the former
count), the count grows by exactly one, and `FindNameIndex` afterwards
returns the former count. -/
def AddNewBehaviour (st : DufAttrState) (a : DufAttr) : Prop :=
  (countGet ((dufAdd false [a] st).1).xprops).1 = (countGet st.xprops).1 + 1 ∧
  (findNameIndex ((dufAdd false [a] st).1) a.name).1 =
    Int.ofNat (countGet st.xprops).1 ∧
  getFromXProperties (ensureXProperties ((dufAdd false [a] st).1).xprops)
    (countGet st.xprops).1 = some a

/-- What `Add` does for an attribute whose name is already present when
`replaceExisting` is false: the count value and every stored attribute
property are unchanged and nothing is reported as added.  Reading the
count materialises an empty count property when missing, which is why the
conclusion speaks of the count value and the attribute properties rather
than of raw state equality. -/
def AddExistingBehaviour (st : DufAttrState) (a : DufAttr) : Prop :=
  (countGet ((dufAdd false [a] st).1).xprops).1 = (countGet st.xprops).1 ∧
  (∀ i suffix, xlookup (ensureXProperties ((dufAdd false [a] st).1).xprops)
      (PropKey.attrKey i suffix) =
    xlookup (ensureXProperties st.xprops) (PropKey.attrKey i suffix)) ∧
  (dufAdd false [a] st).2 = false

/-- Claim C10: for every DufAttributes collection and every attribute with
a non-whitespace name, `Add` either stores the attribute at the former
count, increments the count by exactly one and makes `FindNameIndex`
return the former count (name not yet present), or leaves the count and
every stored attribute property unchanged (name present and
`replaceExisting` false). -/
theorem dufAdd_spec (st : DufAttrState) (a : DufAttr)
    (hname : isNullOrWhiteSpace a.name = false) :
    ((findNameIndex st a.name).1 = -1 → AddNewBehaviour st a) ∧
    (0 ≤ (findNameIndex st a.name).1 → AddExistingBehaviour st a) := by
  have hadd : dufAdd false [a] st = addOne false (st, false) a := rfl
  constructor
  · intro hidx
    rcases hfni : findNameIndex st a.name with ⟨idx, st1⟩
    have hidx1 : idx = -1 := by
      rw [hfni] at hidx
      exact hidx
    subst hidx1
    rcases hcg2 : countGet (some (ensureXProperties st1.xprops)) with ⟨c, x2⟩
    have hstep := addOne_new_eq st a hname st1 hfni c x2 hcg2
    have hrC := xheadAt_set_self_lookup (ensureXProperties x2) PropKey.countKey
      (XVal.vint (Int.ofNat c + 1))
    obtain ⟨r, hr⟩ := hrC
    have hrC2 : xlookup (ensureXProperties (countSet x2 (Int.ofNat c + 1)))
        PropKey.countKey = some (XVal.vint (Int.ofNat c + 1) :: r) := hr
    have hrF : xlookup (setInXProperties
          (ensureXProperties (countSet x2 (Int.ofNat c + 1))) c a)
        PropKey.countKey = some (XVal.vint (Int.ofNat c + 1) :: r) := by
      rw [xlookup_setInX_other _ c a PropKey.countKey (fun s => by simp), hrC2]
    have hcF : (countGet (some (setInXProperties
        (ensureXProperties (countSet x2 (Int.ofNat c + 1))) c a))).1 = c + 1 := by
      rw [countGet_val_of_head _ (Int.ofNat c + 1)
        (by rw [Int.ofNat_eq_natCast] ; omega) r hrF]
      rw [Int.ofNat_eq_natCast]
      omega
    have hx1 : st1.xprops = (countGet st.xprops).2 := by
      have he := findNameIndex_eq st a.name
      rw [hfni] at he
      have h2 := congrArg Prod.snd he
      simp only at h2
      rw [h2]
    have hc0 : c = (countGet st.xprops).1 := by
      have hv := countGet_ensure_val st.xprops
      rw [← hx1] at hv
      rw [hcg2] at hv
      exact hv
    have hstate : (countGet (some (setInXProperties
        (ensureXProperties (countSet x2 (Int.ofNat c + 1))) c a))).2 =
        some (setInXProperties
          (ensureXProperties (countSet x2 (Int.ofNat c + 1))) c a) :=
      countGet_state_of_found _ _ hrF
    have hsn : storedName (setInXProperties
        (ensureXProperties (countSet x2 (Int.ofNat c + 1))) c a) c =
        some a.name := by
      rw [storedName_eq, xheadAt_setInX_Name]
      simp [hname]
    have hget : getFromXProperties (setInXProperties
        (ensureXProperties (countSet x2 (Int.ofNat c + 1))) c a) c = some a :=
      getFromXProperties_setInX _ c a
    set xpF : XProperties := setInXProperties
      (ensureXProperties (countSet x2 (Int.ofNat c + 1))) c a with hxpF
    have hres : (dufAdd false [a] st).1 =
        { xprops := some xpF,
          nameToIndexMap := mapInsert st1.nameToIndexMap a.name c } := by
      rw [hadd, hstep]
    unfold AddNewBehaviour
    rw [hres]
    have hproj : ({ xprops := some xpF,
                    nameToIndexMap := mapInsert st1.nameToIndexMap a.name c } :
                  DufAttrState).xprops = some xpF := rfl
    rw [hproj]
    refine ⟨?_, ?_, ?_⟩
    · rw [← hc0]
      exact hcF
    · rw [← hc0]
      exact findNameIndex_post xpF (mapInsert st1.nameToIndexMap a.name c)
        a.name c r hrF hsn (mapLookup_mapInsert_self st1.nameToIndexMap a.name c)
    · rw [ensureXProperties_some]
      rw [← hc0]
      exact hget
  · intro hge
    rcases hfni : findNameIndex st a.name with ⟨idx, st1⟩
    have hge1 : 0 ≤ idx := by
      rw [hfni] at hge
      exact hge
    obtain ⟨i, hi⟩ : ∃ i : Nat, idx = Int.ofNat i :=
      ⟨idx.toNat, by rw [Int.ofNat_eq_natCast] ; omega⟩
    subst hi
    have hstep := addOne_existing_eq st a hname i st1 hfni
    have hres1 : (dufAdd false [a] st).1 = st1 := by rw [hadd, hstep]
    have hres2 : (dufAdd false [a] st).2 = false := by rw [hadd, hstep]
    have hx1 : st1.xprops = (countGet st.xprops).2 := by
      have he := findNameIndex_eq st a.name
      rw [hfni] at he
      have h2 := congrArg Prod.snd he
      simp only at h2
      rw [h2]
    unfold AddExistingBehaviour
    rw [hres1, hres2, hx1]
    refine ⟨?_, ?_, rfl⟩
    · rw [countGet_idem]
    · intro i2 s
      exact countGet_preserves_attr st.xprops i2 s

/-- Witness for C10: part one on a fresh collection (no XProperties yet,
empty memo map) and the attribute named `Attr`; part two on a collection
already holding `Attr` at slot zero with a count of one. -/
theorem dufAdd_spec_witness :
    AddNewBehaviour { xprops := none, nameToIndexMap := [] }
      ⟨"Attr", DufAttrType.stringType, "", true, "", false, "", false, "",
        "", "", false, false, 0, ""⟩ ∧
    AddExistingBehaviour
      { xprops := some [(PropKey.countKey, [XVal.vint 1]),
                        (PropKey.attrKey 0 "Name", [XVal.vstr "Attr"])],
        nameToIndexMap := [("Attr", 0)] }
      ⟨"Attr", DufAttrType.stringType, "", true, "", false, "", false, "",
        "", "", false, false, 0, ""⟩ :=
  ⟨(dufAdd_spec { xprops := none, nameToIndexMap := [] }
      ⟨"Attr", DufAttrType.stringType, "", true, "", false, "", false, "",
        "", "", false, false, 0, ""⟩ (by decide)).1 (by decide),
   (dufAdd_spec
      { xprops := some [(PropKey.countKey, [XVal.vint 1]),
                        (PropKey.attrKey 0 "Name", [XVal.vstr "Attr"])],
        nameToIndexMap := [("Attr", 0)] }
      ⟨"Attr", DufAttrType.stringType, "", true, "", false, "", false, "",
        "", "", false, false, 0, ""⟩ (by decide)).2 (by decide)⟩
